/-
Verification of the actor/critic network module (ac_nets.py).

The module is embedded shallowly:
* tensors of the fixed 3-D layout (N_S x N_E x D) become nested lists of
  real numbers (`T3`), 2-D tensors become `T2`;
* `nn.Linear` becomes a weight matrix together with a bias vector, and a
  forward pass is the explicit affine map;
* `F.relu`, `F.softmax` become the corresponding real functions;
* fallible tensor operations (one-hot encoding of an out-of-range index,
  multiplying tensors with incompatible shapes) return `Except Err`,
  mirroring the runtime errors the library raises; elementwise binary
  operations broadcast a dimension of size one, as the library does;
* `optimizer.step()` together with `loss.backward()` is abstracted as a
  function `stepF` acting on the optimizer state and the weights: the
  claims under study concern the loss value, the bookkeeping and the error
  behaviour, not the gradient arithmetic.  `stepF` is applied exactly at
  the point in control flow where the source calls `optimizer.step()`;
* the running diagnostics (`critic_loss` / `actor_loss`), initialised to
  `np.inf`, live in `EReal` so that the initial infinity is representable.
-/
import Mathlib

namespace ACNets

/-- Elements of a 1-D tensor slice. -/
abbrev Vec := List ℝ
/-- 2-D tensor (N_S x N_E). -/
abbrev T2 := List (List ℝ)
/-- 3-D tensor (N_S x N_E x D). -/
abbrev T3 := List (List (List ℝ))

/-- Errors surfaced by a failed update: incompatible tensor shapes, or a
discrete action index outside `[0, num_outs)`. -/
inductive Err where
  | shapeMismatch : Err
  | indexOutOfRange : Err
deriving DecidableEq

/-- `nn.Linear`: a weight matrix (one row per output) and a bias vector. -/
structure Linear where
  weight : List (List ℝ)
  bias : List ℝ

/-- Dot product of two vectors (truncating to the shorter one, as `zip` does;
the layer dimensions used below always agree). -/
def dot (w x : Vec) : ℝ := ((w.zip x).map fun p => p.1 * p.2).sum

/-- Applying a linear layer to a feature vector: `W x + b` rowwise. -/
def Linear.apply (l : Linear) (x : Vec) : Vec :=
  (l.weight.zip l.bias).map fun p => dot p.1 x + p.2

/-- `F.relu` applied elementwise to a vector. -/
noncomputable def reluV (x : Vec) : Vec := x.map fun a => max a 0

/-- `F.softmax(-, -1)` on one row: normalised exponentials. -/
noncomputable def softmax (x : Vec) : Vec :=
  x.map fun a => Real.exp a / (x.map Real.exp).sum

/-- `hidden_size = 64` (module-level constant of the source). -/
def hidden_size : ℕ := 64

/-- The 3-layer fully connected network of `ac_nets.NeuralNet`.
`state_dim`/`action_dim` record the constructor arguments (`state_dim` is
the input dimension checked by the first layer, `action_dim` the number of
rows of `l3`); `b_actor` is the policy-mode flag. -/
structure NeuralNet where
  state_dim : ℕ
  action_dim : ℕ
  l1 : Linear
  l2 : Linear
  l3 : Linear
  b_actor : Bool

/-- The two hidden layers with their rectifications
(`relu(l2(relu(l1 s)))`). -/
noncomputable def NeuralNet.hidden2 (n : NeuralNet) (s : Vec) : Vec :=
  reluV (n.l2.apply (reluV (n.l1.apply s)))

/-- The final layer's raw scores `l3(relu(l2(relu(l1 s))))`. -/
noncomputable def NeuralNet.rawScores (n : NeuralNet) (s : Vec) : Vec :=
  n.l3.apply (n.hidden2 s)

/-- `NeuralNet.forward` on one feature vector: softmax of the raw scores in
policy mode, the raw scores themselves otherwise. -/
noncomputable def NeuralNet.forward (n : NeuralNet) (s : Vec) : Vec :=
  if n.b_actor then softmax (n.rawScores s) else n.rawScores s

/- ### Basic facts about the forward pass -/

theorem sum_map_div (l : List ℝ) (f : ℝ → ℝ) (c : ℝ) :
    (l.map fun a => f a / c).sum = (l.map f).sum / c := by
  induction l with
  | nil => simp
  | cons a l ih => simp [ih, add_div]

theorem sum_exp_pos (l : List ℝ) (h : l ≠ []) : 0 < (l.map Real.exp).sum := by
  cases l with
  | nil => exact absurd rfl h
  | cons a l =>
    have h1 : (0:ℝ) ≤ (l.map Real.exp).sum :=
      List.sum_nonneg fun x hx => by
        rcases List.mem_map.1 hx with ⟨y, _, rfl⟩
        exact (Real.exp_pos y).le
    have h2 : 0 < Real.exp a := Real.exp_pos a
    simpa using add_pos_of_pos_of_nonneg h2 h1

theorem softmax_nonneg (x : Vec) : ∀ a ∈ softmax x, 0 ≤ a := by
  intro a ha
  rcases List.mem_map.1 ha with ⟨y, hy, rfl⟩
  rcases eq_or_ne x [] with rfl | hxe
  · simp at hy
  · exact div_nonneg (Real.exp_pos y).le (sum_exp_pos x hxe).le

theorem softmax_sum_one (x : Vec) (h : x ≠ []) : (softmax x).sum = 1 := by
  have hpos := sum_exp_pos x h
  unfold softmax
  rw [sum_map_div]
  exact div_self hpos.ne'

theorem softmax_length (x : Vec) : (softmax x).length = x.length := by
  simp [softmax]

theorem Linear.apply_length (l : Linear) (x : Vec) :
    (l.apply x).length = min l.weight.length l.bias.length := by
  simp [Linear.apply]

theorem NeuralNet.forward_length (n : NeuralNet) (s : Vec) :
    (n.forward s).length = min n.l3.weight.length n.l3.bias.length := by
  unfold NeuralNet.forward NeuralNet.rawScores
  cases n.b_actor <;> simp [softmax_length, Linear.apply_length]

/- ### Fallible elementwise machinery -/

/-- Sequencing of fallible computations: an error aborts, a success feeds
the continuation (exception propagation in the source). -/
def andThenE {α β : Type} (x : Except Err α) (f : α → Except Err β) : Except Err β :=
  match x with
  | .error e => .error e
  | .ok a => f a

@[simp] theorem andThenE_ok {α β : Type} (a : α) (f : α → Except Err β) :
    andThenE (.ok a) f = f a := rfl

@[simp] theorem andThenE_error {α β : Type} (e : Err) (f : α → Except Err β) :
    andThenE (.error e) f = .error e := rfl

/-- Map a fallible function over a list, stopping at the first error
(the order in which the library visits tensor entries). -/
def mapE {α β : Type} (f : α → Except Err β) : List α → Except Err (List β)
  | [] => .ok []
  | a :: l =>
    match f a with
    | .error e => .error e
    | .ok b =>
      match mapE f l with
      | .error e => .error e
      | .ok bs => .ok (b :: bs)

theorem mapE_nil {α β : Type} (f : α → Except Err β) : mapE f [] = .ok [] := rfl

theorem mapE_cons {α β : Type} (f : α → Except Err β) (a : α) (l : List α) :
    mapE f (a :: l) =
      andThenE (f a) fun b => andThenE (mapE f l) fun bs => .ok (b :: bs) := by
  cases h : f a <;> cases h2 : mapE f l <;> simp [mapE, h, h2, andThenE]

/-- One level of the library's broadcasting for a binary elementwise
operation: equal sizes act pointwise, a size-one side is repeated, any
other disagreement is a shape error. -/
def bcE {α β γ : Type} (f : α → β → Except Err γ) (xs : List α) (ys : List β) :
    Except Err (List γ) :=
  if xs.length = ys.length then mapE (fun p => f p.1 p.2) (xs.zip ys)
  else
    match xs with
    | [x] => mapE (fun y => f x y) ys
    | _ =>
      match ys with
      | [y] => mapE (fun x => f x y) xs
      | _ => .error .shapeMismatch

/-- Broadcasting binary operation on 3-D tensors (all three levels). -/
def bc3 (f : ℝ → ℝ → ℝ) : T3 → T3 → Except Err T3 :=
  bcE (bcE (bcE fun a b => .ok (f a b)))

/-- Elementwise product `Q * q_sel` with broadcasting. -/
def mul3 : T3 → T3 → Except Err T3 := bc3 (· * ·)

/-- Elementwise difference with broadcasting. -/
def sub3 : T3 → T3 → Except Err T3 := bc3 (· - ·)

/-- Elementwise squared difference with broadcasting (body of `MSELoss`). -/
def sqDiff3 : T3 → T3 → Except Err T3 := bc3 fun a b => (a - b) ^ 2

/-- `.sum(-1, keepdims=True)`: sum out the last dimension keeping a
singleton in its place. -/
def sumLast (x : T3) : T3 := x.map fun m => m.map fun v => [v.sum]

/-- Multiply every entry by a scalar (`self.beta * entropy`). -/
def scale3 (c : ℝ) (x : T3) : T3 := x.map fun m => m.map fun v => v.map (c * ·)

/-- Elementwise negation (`- adv`). -/
def neg3 (x : T3) : T3 := x.map fun m => m.map fun v => v.map Neg.neg

/-- All entries of a 3-D tensor in order. -/
def flat3 (x : T3) : List ℝ := (x.map fun m => m.flatten).flatten

/-- `.mean()` over all entries of a tensor. -/
noncomputable def mean3 (x : T3) : ℝ := (flat3 x).sum / (flat3 x).length

/-- `np.mean` of the recorded loss list. -/
noncomputable def meanList (l : List ℝ) : ℝ := l.sum / l.length

/-- `nn.MSELoss()(a, b)`: mean of the elementwise squared differences
(the source passes `a := target`, `b := dot_prd`). -/
noncomputable def mseLoss (a b : T3) : Except Err ℝ :=
  andThenE (sqDiff3 a b) fun z => .ok (mean3 z)

/-- The object state a method call leaves behind: the new state on
success, the old state `st` when the call raises. -/
def recoverE {α : Type} (st : α) : Except Err α → α
  | .ok a => a
  | .error _ => st

@[simp] theorem recoverE_ok {α : Type} (st a : α) : recoverE st (.ok a) = a := rfl

@[simp] theorem recoverE_error {α : Type} (st : α) (e : Err) :
    recoverE st (.error e) = st := rfl

/-- `.long()` on a real scalar: truncation toward zero. -/
noncomputable def intTrunc (x : ℝ) : ℤ := if 0 ≤ x then ⌊x⌋ else ⌈x⌉

/-- The one-hot vector `F.one_hot` produces for index `k` out of `n`. -/
def oneHot (n k : ℕ) : Vec := (List.range n).map fun j => if j = k then 1 else 0

/-- `F.one_hot(v, num_classes := n)` on one entry: defined exactly for
`0 ≤ v < n`, a runtime error otherwise. -/
def oneHotE (n : ℕ) (v : ℤ) : Except Err Vec :=
  if 0 ≤ v ∧ v < (n : ℤ) then .ok (oneHot n v.toNat) else .error .indexOutOfRange

/-- `.squeeze(-1)` under the module's interface convention that the action
tensor carries a trailing dimension of size one (see the shape comments in
the source); an entry of any other size is a shape error. -/
def squeezeLastE (a : T3) : Except Err T2 :=
  mapE (fun m => mapE (fun v => match v with | [x] => .ok x | _ => .error .shapeMismatch) m) a

/- ### Shape predicates -/

/-- Rectangular 2-D tensor of shape `S x E`. -/
abbrev Wf2 {α : Type} (x : List (List α)) (S E : ℕ) : Prop :=
  x.length = S ∧ ∀ r ∈ x, r.length = E

/-- Rectangular 3-D tensor of shape `S x E x D`. -/
abbrev Wf3 {α : Type} (x : List (List (List α))) (S E D : ℕ) : Prop :=
  x.length = S ∧ ∀ m ∈ x, Wf2 m E D

/- ### Trainer state -/

/-- Contents of the Adam optimizer's internal buffers; their arithmetic is
outside the claims under study, so they are carried opaquely. -/
abbrev OptState := List ℝ

/-- `loss.backward()` followed by `optimizer.step()`: one abstract gradient
step acting on the optimizer buffers and the weights.  The update
procedures below are stated for an arbitrary such `stepF`. -/
abbrev StepFun := OptState × NeuralNet → OptState × NeuralNet

/-- Append a loss to the history, then drop the oldest entry when the
length exceeds 20 (`self.losses.append`, `del self.losses[0]`). -/
def pushTrim (l : List ℝ) (x : ℝ) : List ℝ :=
  let l' := l ++ [x]
  if 20 < l'.length then l'.tail else l'

/-- Evaluate the network on every feature vector of a batch; a feature
vector whose length differs from the input dimension is the runtime shape
error the first layer raises. -/
noncomputable def NeuralNet.forwardBatch (n : NeuralNet) (obs : T3) : Except Err T3 :=
  mapE (fun m => mapE (fun v =>
    if v.length = n.state_dim then .ok (n.forward v) else .error .shapeMismatch) m) obs

/-- The state of `ac_nets.CriticNetwork`. -/
structure CriticNetwork where
  name : String
  num_outs : ℕ
  net : NeuralNet
  optim : OptState
  losses : List ℝ
  critic_loss : EReal

/-- `CriticNetwork.__init__`: store the fresh value-mode network (the
constructor builds it with `b_actor = False`), an empty loss history and an
infinite diagnostic.  The randomly initialised weights and the fresh Adam
buffers arrive as arguments `net0`, `opt0`. -/
def CriticNetwork.init (name : String) (net0 : NeuralNet) (critic_actions : ℕ)
    (opt0 : OptState) : CriticNetwork :=
  { name := name
    num_outs := critic_actions
    net := { net0 with b_actor := false }
    optim := opt0
    losses := []
    critic_loss := ⊤ }

/-- `CriticNetwork.run_main`: evaluate the network on the batch and leave
the trainer untouched (the `grad` flag only toggles gradient bookkeeping,
which has no bearing on the value).  The pair returned is
(method result, object state after the call). -/
noncomputable def CriticNetwork.run_main (st : CriticNetwork) (obs : T3) (grad : Bool) :
    Except Err T3 × CriticNetwork :=
  (st.net.forwardBatch obs, st)

/-- The one-hot selection tensor built from the action-index tensor:
`F.one_hot(act.squeeze(-1).long(), num_classes = n).float()`. -/
noncomputable def oneHotSelE (n : ℕ) (act : T3) : Except Err T3 :=
  andThenE (squeezeLastE act) fun idx =>
    mapE (fun r => mapE (fun v => oneHotE n (intTrunc v)) r) idx

/-- `(Q * q_sel).sum(-1, keepdims=True)`. -/
def weightedSum (Q q_sel : T3) : Except Err T3 :=
  andThenE (mul3 Q q_sel) fun z => .ok (sumLast z)

/-- `CriticNetwork.batch_update`.  Mirrors the source's control flow: the
forward pass, the selection tensor, the weighted sum and the loss are all
computed before any state mutation; an error in any of them aborts the
call.  On success the gradient step is applied, the loss is recorded into
the bounded history and the running mean is recomputed. -/
noncomputable def CriticNetwork.batch_update (stepF : StepFun) (st : CriticNetwork)
    (obs act target : T3) (action_distribution : Bool) : Except Err CriticNetwork :=
  andThenE (st.net.forwardBatch obs) fun Q =>
  andThenE (if action_distribution then .ok act else oneHotSelE st.num_outs act) fun q_sel =>
  andThenE (weightedSum Q q_sel) fun dot_prd =>
  andThenE (mseLoss target dot_prd) fun get_loss =>
  let p := stepF (st.optim, st.net)
  let hist := pushTrim st.losses get_loss
  .ok { st with
        optim := p.1
        net := p.2
        losses := hist
        critic_loss := ((meanList hist : ℝ) : EReal) }

/-- The critic object's state after a `batch_update` call: the new state on
success, the old state when the call raises (every mutation of the fields
modelled here happens after the last fallible operation). -/
noncomputable def CriticNetwork.batch_update_run (stepF : StepFun) (st : CriticNetwork)
    (obs act target : T3) (action_distribution : Bool) : CriticNetwork :=
  recoverE st (CriticNetwork.batch_update stepF st obs act target action_distribution)

/-- The state of `ac_nets.ActorNetwork`. -/
structure ActorNetwork where
  name : String
  num_outs : ℕ
  net : NeuralNet
  optim : OptState
  beta : ℝ
  losses : List ℝ
  actor_loss : EReal

/-- `ActorNetwork.__init__`: the network is built in policy mode
(`b_actor = True`); empty history, infinite diagnostic. -/
def ActorNetwork.init (name : String) (net0 : NeuralNet) (actor_actions : ℕ)
    (beta : ℝ) (opt0 : OptState) : ActorNetwork :=
  { name := name
    num_outs := actor_actions
    net := { net0 with b_actor := true }
    optim := opt0
    beta := beta
    losses := []
    actor_loss := ⊤ }

/-- Inverse-CDF draw from one categorical row given one uniform sample. -/
noncomputable def catSample : Vec → ℝ → ℕ
  | [], _ => 0
  | p :: ps, u => if u ≤ p then 0 else catSample ps (u - p) + 1

/-- One batch row of categorical draws, one per example, with `u i j` the
uniform randomness consumed at position `(i, j)`. -/
noncomputable def sampleRow (u : ℕ → ℕ → ℝ) (i : ℕ) : ℕ → List Vec → List ℕ
  | _, [] => []
  | j, p :: ps => catSample p (u i j) :: sampleRow u i (j + 1) ps

/-- The full grid of categorical draws over the two batch dimensions. -/
noncomputable def sampleGrid (u : ℕ → ℕ → ℝ) : ℕ → T3 → List (List ℕ)
  | _, [] => []
  | i, m :: ms => sampleRow u i 0 m :: sampleGrid u (i + 1) ms

/-- `ActorNetwork.sample_action`: evaluate the policy and draw one action
index per example.  The returned tensor is indexed by the two batch
dimensions only: `Categorical(probs)` with the event along the last
dimension has batch shape `(N_S, N_E)`, and `.sample()` returns exactly
that shape. -/
noncomputable def ActorNetwork.sample_action (st : ActorNetwork) (obs : T3)
    (u : ℕ → ℕ → ℝ) (grad : Bool) : Except Err (List (List ℕ)) :=
  andThenE (st.net.forwardBatch obs) fun probs =>
    .ok (sampleGrid u 0 probs)

/-- `Categorical(probs = p).log_prob(v)` on one example: `v` is truncated
to an integer index; an index outside `[0, p.length)` is the runtime
gather error. -/
noncomputable def logProbLeaf (p : Vec) (v : ℝ) : Except Err ℝ :=
  let k := intTrunc v
  if 0 ≤ k ∧ k < (p.length : ℤ) then .ok (Real.log (p.getD k.toNat 0))
  else .error .indexOutOfRange

/-- `dist.log_prob(act.squeeze(-1))`: the squeezed value tensor broadcasts
against the distribution's batch shape. -/
noncomputable def logProb2 (probs : T3) (val : T2) : Except Err T2 :=
  bcE (bcE logProbLeaf) probs val

/-- Entropy of one categorical row, with the library's `0 * log 0 = 0`
convention (which `Real.log 0 = 0` satisfies). -/
noncomputable def entropyVec (p : Vec) : ℝ := -((p.map fun a => a * Real.log a).sum)

/-- `dist.entropy().unsqueeze(-1)`. -/
noncomputable def entropyB (probs : T3) : T3 :=
  probs.map fun m => m.map fun p => [entropyVec p]

/-- `.unsqueeze(-1)` on a 2-D tensor. -/
def unsqueezeLast (x : T2) : T3 := x.map fun r => r.map fun a => [a]

/-- `ActorNetwork.batch_update`, mirroring the source's control flow as in
the critic case.  With `action_distribution` the surrogate loss is the
negated advantage and the action tensor is never consulted; otherwise it is
the advantage times the negative log-probability of the taken action.  The
entropy bonus is subtracted in both branches before the batch mean. -/
noncomputable def ActorNetwork.batch_update (stepF : StepFun) (st : ActorNetwork)
    (obs act adv : T3) (action_distribution : Bool) : Except Err ActorNetwork :=
  andThenE (st.net.forwardBatch obs) fun probs =>
  andThenE (if action_distribution then (.ok (neg3 adv) : Except Err T3) else
    andThenE (squeezeLastE act) fun a =>
    andThenE (logProb2 probs a) fun lp =>
      mul3 adv (unsqueezeLast (lp.map fun r => r.map Neg.neg))) fun pg_loss =>
  andThenE (sub3 pg_loss (scale3 st.beta (entropyB probs))) fun diff =>
  let get_loss := mean3 diff
  let p := stepF (st.optim, st.net)
  let hist := pushTrim st.losses get_loss
  .ok { st with
        optim := p.1
        net := p.2
        losses := hist
        actor_loss := ((meanList hist : ℝ) : EReal) }

/-- The actor object's state after a `batch_update` call (new state on
success, unchanged state when the call raises). -/
noncomputable def ActorNetwork.batch_update_run (stepF : StepFun) (st : ActorNetwork)
    (obs act adv : T3) (action_distribution : Bool) : ActorNetwork :=
  recoverE st (ActorNetwork.batch_update stepF st obs act adv action_distribution)

/-- Whether an `Except` result is a success. -/
def isOkE {α : Type} : Except Err α → Bool
  | .ok _ => true
  | .error _ => false

/-- Pointwise binary operation on two 3-D tensors of one shape. -/
def zip3 (f : ℝ → ℝ → ℝ) (x y : T3) : T3 :=
  List.zipWith (List.zipWith (List.zipWith f)) x y

/- ### Lemmas about the fallible combinators -/

theorem mapE_ok {α β : Type} (f : α → Except Err β) (g : α → β) :
    ∀ l : List α, (∀ a ∈ l, f a = .ok (g a)) → mapE f l = .ok (l.map g) := by
  intro l
  induction l with
  | nil => intro _; rfl
  | cons a l ih =>
    intro h
    have ha := h a (List.mem_cons_self a l)
    have hl := ih fun x hx => h x (List.mem_cons_of_mem a hx)
    simp [mapE, ha, hl]

theorem mapE_map {α β γ : Type} (f : β → Except Err γ) (g : α → β) (l : List α) :
    mapE f (l.map g) = mapE (fun a => f (g a)) l := by
  induction l with
  | nil => rfl
  | cons a l ih => simp [mapE, ih]

theorem mapE_error_of {α β : Type} (f : α → Except Err β) (e0 : Err) :
    ∀ l : List α, (∀ a ∈ l, f a = .error e0 ∨ ∃ b, f a = .ok b) →
      (∃ a ∈ l, f a = .error e0) → mapE f l = .error e0 := by
  intro l
  induction l with
  | nil => rintro _ ⟨a, ha, _⟩; simp at ha
  | cons a l ih =>
    rintro hall ⟨a', ha', he⟩
    rcases hall a (List.mem_cons_self a l) with ha | ⟨b, hb⟩
    · simp [mapE, ha]
    · have ha'l : a' ∈ l := by
        rcases List.mem_cons.1 ha' with rfl | h
        · rw [hb] at he; exact absurd he (by simp)
        · exact h
      have hl := ih (fun x hx => hall x (List.mem_cons_of_mem a hx)) ⟨a', ha'l, he⟩
      simp [mapE, hb, hl]

theorem map_zip_eq_zipWith {α β γ : Type} (g : α → β → γ) :
    ∀ (xs : List α) (ys : List β),
      (xs.zip ys).map (fun p => g p.1 p.2) = List.zipWith g xs ys := by
  intro xs
  induction xs with
  | nil => intro ys; rfl
  | cons x xs ih => intro ys; cases ys with
    | nil => rfl
    | cons y ys => simp [ih]

theorem bcE_ok {α β γ : Type} (f : α → β → Except Err γ) (g : α → β → γ)
    (xs : List α) (ys : List β) (hlen : xs.length = ys.length)
    (h : ∀ p ∈ xs.zip ys, f p.1 p.2 = .ok (g p.1 p.2)) :
    bcE f xs ys = .ok (List.zipWith g xs ys) := by
  unfold bcE
  rw [if_pos hlen, mapE_ok _ (fun p => g p.1 p.2) _ h, map_zip_eq_zipWith]

theorem bcE_error {α β γ : Type} (f : α → β → Except Err γ)
    (xs : List α) (ys : List β) (h1 : xs.length ≠ ys.length)
    (h2 : xs.length ≠ 1) (h3 : ys.length ≠ 1) :
    bcE f xs ys = .error .shapeMismatch := by
  unfold bcE
  rw [if_neg h1]
  match xs, ys with
  | [], [] => exact absurd rfl h1
  | [], [y] => simp at h3
  | [], _ :: _ :: _ => rfl
  | [x], _ => simp at h2
  | _ :: _ :: _, [] => rfl
  | _ :: _ :: _, [y] => simp at h3
  | _ :: _ :: _, _ :: _ :: _ => rfl

theorem bcE_one_left {α β γ : Type} (f : α → β → Except Err γ) (x : α) (ys : List β)
    (h : 1 ≠ ys.length) : bcE f [x] ys = mapE (fun y => f x y) ys := by
  unfold bcE
  rw [if_neg (by simpa using h)]

theorem bcE_one_right {α β γ : Type} (f : α → β → Except Err γ) (xs : List α) (y : β)
    (h : xs.length ≠ 1) : bcE f xs [y] = mapE (fun x => f x y) xs := by
  unfold bcE
  rw [if_neg (by simpa using h)]
  match xs, h with
  | [], _ => rfl
  | [x], h => simp at h
  | _ :: _ :: _, _ => rfl

theorem bc3_ok (f : ℝ → ℝ → ℝ) (x y : T3) (S E D : ℕ)
    (hx : Wf3 x S E D) (hy : Wf3 y S E D) :
    bc3 f x y = .ok (zip3 f x y) := by
  unfold bc3 zip3
  apply bcE_ok _ _ _ _ (hx.1.trans hy.1.symm)
  intro p hp
  obtain ⟨hpx, hpy⟩ := List.of_mem_zip hp
  obtain ⟨hx1, hx2⟩ := hx.2 p.1 hpx
  obtain ⟨hy1, hy2⟩ := hy.2 p.2 hpy
  apply bcE_ok _ _ _ _ (hx1.trans hy1.symm)
  intro q hq
  obtain ⟨hqx, hqy⟩ := List.of_mem_zip hq
  apply bcE_ok _ _ _ _ ((hx2 q.1 hqx).trans (hy2 q.2 hqy).symm)
  intro r _
  rfl

theorem forwardBatch_ok (n : NeuralNet) (obs : T3) (S E : ℕ)
    (hobs : Wf3 obs S E n.state_dim) :
    n.forwardBatch obs = .ok (obs.map fun m => m.map n.forward) := by
  unfold NeuralNet.forwardBatch
  apply mapE_ok
  intro m hm
  apply mapE_ok
  intro v hv
  rw [if_pos ((hobs.2 m hm).2 v hv)]

/- ### One-hot selection -/

theorem intTrunc_natCast (k : ℕ) : intTrunc (k : ℝ) = (k : ℤ) := by
  simp [intTrunc, Nat.cast_nonneg, Int.floor_natCast]

theorem oneHotE_natCast (n k : ℕ) (h : k < n) : oneHotE n (k : ℤ) = .ok (oneHot n k) := by
  have h0 : (0:ℤ) ≤ (k:ℤ) := Int.natCast_nonneg k
  have h1 : (k:ℤ) < (n:ℤ) := by exact_mod_cast h
  simp [oneHotE, h0, h1]

theorem oneHot_length (n k : ℕ) : (oneHot n k).length = n := by
  simp [oneHot]

theorem sum_zipWith_replicate_zero (q : Vec) :
    ∀ m : ℕ, (List.zipWith (· * ·) q (List.replicate m (0:ℝ))).sum = 0 := by
  induction q with
  | nil => intro m; simp
  | cons x q ih => intro m; cases m with
    | zero => simp
    | succ m => simp [List.replicate_succ, ih]

theorem dot_oneHot (q : Vec) : ∀ k : ℕ, k < q.length →
    (List.zipWith (· * ·) q (oneHot q.length k)).sum = q.getD k 0 := by
  induction q with
  | nil => intro k hk; simp at hk
  | cons x q ih =>
    intro k hk
    have hr : oneHot (x :: q).length k =
        (if 0 = k then (1:ℝ) else 0) ::
          (List.range q.length).map fun j => if j + 1 = k then (1:ℝ) else 0 := by
      simp [oneHot, List.length_cons, List.range_succ_eq_map, Nat.succ_eq_add_one]
    cases k with
    | zero =>
      have hz : ((List.range q.length).map fun j => if j + 1 = 0 then (1:ℝ) else 0)
          = List.replicate q.length 0 := by
        rw [show (fun j => if j + 1 = 0 then (1:ℝ) else 0) = fun _ => (0:ℝ) by
          funext j; simp]
        simp [List.map_const']
      rw [hr, hz]
      simp [sum_zipWith_replicate_zero]
    | succ k =>
      have hs : ((List.range q.length).map fun j => if j + 1 = k + 1 then (1:ℝ) else 0)
          = oneHot q.length k := by
        unfold oneHot
        apply List.map_congr_left
        intro j _
        simp
      rw [hr, hs]
      have hk' : k < q.length := Nat.lt_of_succ_lt_succ hk
      simp [ih k hk']

/- ### Shape propagation -/

theorem of_mem_zipWith {α β γ : Type} (f : α → β → γ) :
    ∀ (xs : List α) (ys : List β) (c : γ), c ∈ List.zipWith f xs ys →
      ∃ a ∈ xs, ∃ b ∈ ys, c = f a b := by
  intro xs
  induction xs with
  | nil => intro ys c hc; simp at hc
  | cons x xs ih =>
    intro ys c hc
    cases ys with
    | nil => simp at hc
    | cons y ys =>
      rcases List.mem_cons.1 hc with rfl | hc
      · exact ⟨x, List.mem_cons_self x xs, y, List.mem_cons_self y ys, rfl⟩
      · obtain ⟨a, ha, b, hb, rfl⟩ := ih ys c hc
        exact ⟨a, List.mem_cons_of_mem x ha, b, List.mem_cons_of_mem y hb, rfl⟩

theorem zipWith_congr {α β γ : Type} (f g : α → β → γ) :
    ∀ (xs : List α) (ys : List β), (∀ a ∈ xs, ∀ b ∈ ys, f a b = g a b) →
      List.zipWith f xs ys = List.zipWith g xs ys := by
  intro xs
  induction xs with
  | nil => intro ys _; rfl
  | cons x xs ih =>
    intro ys h
    cases ys with
    | nil => rfl
    | cons y ys =>
      simp only [List.zipWith_cons_cons]
      refine congrArg₂ _ (h x (List.mem_cons_self x xs) y (List.mem_cons_self y ys)) ?_
      exact ih ys fun a ha b hb =>
        h a (List.mem_cons_of_mem x ha) b (List.mem_cons_of_mem y hb)

theorem Wf3_map2 {α β : Type} (x : List (List (List α))) (S E D D' : ℕ)
    (hx : Wf3 x S E D) (g : List α → List β)
    (hg : ∀ v, v.length = D → (g v).length = D') :
    Wf3 (x.map fun m => m.map g) S E D' := by
  refine ⟨by simp [hx.1], ?_⟩
  intro m hm
  rcases List.mem_map.1 hm with ⟨m0, hm0, rfl⟩
  refine ⟨by simp [(hx.2 m0 hm0).1], ?_⟩
  intro v hv
  rcases List.mem_map.1 hv with ⟨v0, hv0, rfl⟩
  exact hg v0 ((hx.2 m0 hm0).2 v0 hv0)

theorem Wf3_of_idx {α β : Type} (A : List (List α)) (S E D' : ℕ)
    (hA : Wf2 A S E) (g : α → List β) (hg : ∀ k, (g k).length = D') :
    Wf3 (A.map fun r => r.map g) S E D' := by
  refine ⟨by simp [hA.1], ?_⟩
  intro m hm
  rcases List.mem_map.1 hm with ⟨r, hr, rfl⟩
  refine ⟨by simp [hA.2 r hr], ?_⟩
  intro v hv
  rcases List.mem_map.1 hv with ⟨k, _, rfl⟩
  exact hg k

theorem Wf3_zipSel {α β γ : Type} (x : List (List (List α))) (A : List (List β))
    (g : List α → β → List γ) (S E D D' : ℕ)
    (hx : Wf3 x S E D) (hA : Wf2 A S E) (hg : ∀ a b, (g a b).length = D') :
    Wf3 (List.zipWith (List.zipWith g) x A) S E D' := by
  refine ⟨by simp [List.length_zipWith, hx.1, hA.1], ?_⟩
  intro m hm
  obtain ⟨a, ha, b, hb, rfl⟩ := of_mem_zipWith _ _ _ _ hm
  refine ⟨by simp [List.length_zipWith, (hx.2 a ha).1, hA.2 b hb], ?_⟩
  intro v hv
  obtain ⟨a', _, b', _, rfl⟩ := of_mem_zipWith _ _ _ _ hv
  exact hg a' b'

theorem Wf3_zip3 (f : ℝ → ℝ → ℝ) (x y : T3) (S E D : ℕ)
    (hx : Wf3 x S E D) (hy : Wf3 y S E D) : Wf3 (zip3 f x y) S E D := by
  unfold zip3
  refine ⟨by simp [List.length_zipWith, hx.1, hy.1], ?_⟩
  intro m hm
  obtain ⟨a, ha, b, hb, rfl⟩ := of_mem_zipWith _ _ _ _ hm
  refine ⟨by simp [List.length_zipWith, (hx.2 a ha).1, (hy.2 b hb).1], ?_⟩
  intro v hv
  obtain ⟨a', ha', b', hb', rfl⟩ := of_mem_zipWith _ _ _ _ hv
  simp [List.length_zipWith, (hx.2 a ha).2 a' ha', (hy.2 b hb).2 b' hb']

/- ### The action-index tensor and its selection path -/

/-- The 3-D action tensor holding the integer index `A i j` at position
`(i, j)` with the interface's trailing dimension of size one. -/
def idxT3 (A : List (List ℕ)) : T3 := A.map fun r => r.map fun k : ℕ => [(k : ℝ)]

theorem squeezeLastE_row (r : List ℕ) :
    mapE (fun v => match v with | [x] => .ok x | _ => .error Err.shapeMismatch)
      (r.map fun k : ℕ => [(k : ℝ)]) = .ok (r.map fun k : ℕ => (k : ℝ)) := by
  induction r with
  | nil => rfl
  | cons k r ih => simp only [List.map_cons, mapE_cons, ih, andThenE_ok]

theorem squeezeLastE_idx (A : List (List ℕ)) :
    squeezeLastE (idxT3 A) = .ok (A.map fun r => r.map fun k : ℕ => (k : ℝ)) := by
  unfold squeezeLastE idxT3
  induction A with
  | nil => rfl
  | cons r A ih => simp only [List.map_cons, mapE_cons, squeezeLastE_row, ih, andThenE_ok]

theorem oneHotSelE_row (n : ℕ) (r : List ℕ) (hr : ∀ k ∈ r, k < n) :
    mapE (fun v => oneHotE n (intTrunc v)) (r.map fun k : ℕ => (k : ℝ)) =
      .ok (r.map (oneHot n)) := by
  induction r with
  | nil => rfl
  | cons k r ih =>
    have hk : oneHotE n (intTrunc (k : ℝ)) = .ok (oneHot n k) := by
      rw [intTrunc_natCast]
      exact oneHotE_natCast n k (hr k (List.mem_cons_self k r))
    have ih' := ih fun x hx => hr x (List.mem_cons_of_mem k hx)
    simp only [List.map_cons, mapE_cons, hk, ih', andThenE_ok]

theorem oneHotSelE_ok (n : ℕ) (A : List (List ℕ)) (hr : ∀ r ∈ A, ∀ k ∈ r, k < n) :
    oneHotSelE n (idxT3 A) = .ok (A.map fun r => r.map (oneHot n)) := by
  unfold oneHotSelE
  rw [squeezeLastE_idx, andThenE_ok]
  induction A with
  | nil => rfl
  | cons r A ih =>
    have hrow := oneHotSelE_row n r (hr r (List.mem_cons_self r A))
    have ih' := ih fun x hx => hr x (List.mem_cons_of_mem r hx)
    simp only [List.map_cons, mapE_cons, hrow, ih', andThenE_ok]

/- ### Integer-valued action tensors (indices may be negative) -/

theorem mapE_ok_or_error {α β : Type} (f : α → Except Err β) (e0 : Err) :
    ∀ l : List α, (∀ a ∈ l, f a = .error e0 ∨ ∃ b, f a = .ok b) →
      mapE f l = .error e0 ∨ ∃ bs, mapE f l = .ok bs := by
  intro l
  induction l with
  | nil => intro _; exact Or.inr ⟨[], rfl⟩
  | cons a l ih =>
    intro hall
    rcases hall a (List.mem_cons_self a l) with ha | ⟨b, hb⟩
    · exact Or.inl (by simp [mapE_cons, ha])
    · rcases ih (fun x hx => hall x (List.mem_cons_of_mem a hx)) with hl | ⟨bs, hbs⟩
      · exact Or.inl (by simp [mapE_cons, hb, hl])
      · exact Or.inr ⟨b :: bs, by simp [mapE_cons, hb, hbs]⟩


/-- The 3-D action tensor holding the (possibly negative) integer index
`A i j` at position `(i, j)`, with the trailing dimension of size one. -/
def idxT3Z (A : List (List ℤ)) : T3 := A.map fun r => r.map fun k : ℤ => [(k : ℝ)]

theorem intTrunc_intCast (k : ℤ) : intTrunc (k : ℝ) = k := by
  unfold intTrunc
  by_cases h : (0 : ℝ) ≤ (k : ℝ)
  · rw [if_pos h, Int.floor_intCast]
  · rw [if_neg h, Int.ceil_intCast]

theorem squeezeLastE_rowZ (r : List ℤ) :
    mapE (fun v => match v with | [x] => .ok x | _ => .error Err.shapeMismatch)
      (r.map fun k : ℤ => [(k : ℝ)]) = .ok (r.map fun k : ℤ => (k : ℝ)) := by
  induction r with
  | nil => rfl
  | cons k r ih => simp only [List.map_cons, mapE_cons, ih, andThenE_ok]

theorem squeezeLastE_idxZ (A : List (List ℤ)) :
    squeezeLastE (idxT3Z A) = .ok (A.map fun r => r.map fun k : ℤ => (k : ℝ)) := by
  unfold squeezeLastE idxT3Z
  induction A with
  | nil => rfl
  | cons r A ih => simp only [List.map_cons, mapE_cons, squeezeLastE_rowZ, ih, andThenE_ok]

theorem oneHotE_ok_or_err (n : ℕ) (k : ℤ) :
    oneHotE n k = .error .indexOutOfRange ∨ ∃ b, oneHotE n k = .ok b := by
  unfold oneHotE
  by_cases h : 0 ≤ k ∧ k < (n : ℤ)
  · exact Or.inr ⟨_, by rw [if_pos h]⟩
  · exact Or.inl (by rw [if_neg h])

theorem oneHotE_oorZ (n : ℕ) (k : ℤ) (h : k < 0 ∨ (n : ℤ) ≤ k) :
    oneHotE n k = .error .indexOutOfRange := by
  unfold oneHotE
  rw [if_neg]
  rintro ⟨h1, h2⟩
  rcases h with h | h <;> omega

theorem oneHotSelE_errZ (n : ℕ) (A : List (List ℤ))
    (hbad : ∃ r ∈ A, ∃ k ∈ r, k < 0 ∨ (n : ℤ) ≤ k) :
    oneHotSelE n (idxT3Z A) = .error .indexOutOfRange := by
  unfold oneHotSelE
  rw [squeezeLastE_idxZ, andThenE_ok]
  obtain ⟨r0, hr0, k0, hk0, hbadk⟩ := hbad
  have hleaf : ∀ v : ℝ, ∀ k : ℤ, v = (k : ℝ) →
      oneHotE n (intTrunc v) = .error .indexOutOfRange ∨
        ∃ b, oneHotE n (intTrunc v) = .ok b := by
    rintro v k rfl
    rw [intTrunc_intCast]
    exact oneHotE_ok_or_err n k
  apply mapE_error_of
  · intro r' hr'
    rcases List.mem_map.1 hr' with ⟨r, _, rfl⟩
    apply mapE_ok_or_error
    intro v hv
    rcases List.mem_map.1 hv with ⟨k, _, rfl⟩
    exact hleaf _ k rfl
  · refine ⟨r0.map fun k : ℤ => (k : ℝ), List.mem_map_of_mem _ hr0, ?_⟩
    apply mapE_error_of
    · intro v hv
      rcases List.mem_map.1 hv with ⟨k, _, rfl⟩
      exact hleaf _ k rfl
    · refine ⟨(k0 : ℝ), List.mem_map_of_mem _ hk0, ?_⟩
      rw [intTrunc_intCast]
      exact oneHotE_oorZ n k0 hbadk

/- ### The critic update on a well-shaped batch -/

theorem Wf3_forward (n : NeuralNet) (obs : T3) (S E D : ℕ)
    (hobs : Wf3 obs S E n.state_dim)
    (hD : min n.l3.weight.length n.l3.bias.length = D) :
    Wf3 (obs.map fun m => m.map n.forward) S E D :=
  Wf3_map2 obs S E n.state_dim D hobs n.forward fun v _ => by
    rw [NeuralNet.forward_length, hD]

/-- The Q-values the critic's one-hot path selects: entry `(i, j)` is the
network output at the action index `A i j` (kept as a trailing singleton,
like `dot_prd` in the source). -/
noncomputable def criticSel (net : NeuralNet) (obs : T3) (A : List (List ℕ)) : T3 :=
  List.zipWith (List.zipWith fun q (k : ℕ) => [q.getD k 0])
    (obs.map fun m => m.map net.forward) A

/-- The scalar loss a successful one-hot critic update records: the mean
squared error between the targets and the selected Q-values. -/
noncomputable def criticLossVal (net : NeuralNet) (obs : T3) (A : List (List ℕ))
    (target : T3) : ℝ :=
  mean3 (zip3 (fun t p => (t - p) ^ 2) target (criticSel net obs A))

theorem sumLast_mul_oneHot (Q : T3) (A : List (List ℕ)) (n : ℕ)
    (hQ : ∀ m ∈ Q, ∀ q ∈ m, q.length = n)
    (hA : ∀ r ∈ A, ∀ k ∈ r, k < n) :
    sumLast (zip3 (· * ·) Q (A.map fun r => r.map (oneHot n))) =
      List.zipWith (List.zipWith fun q (k : ℕ) => [q.getD k 0]) Q A := by
  unfold sumLast zip3
  rw [List.zipWith_map_right, List.map_zipWith]
  apply zipWith_congr
  intro m hm r hr
  rw [List.zipWith_map_right, List.map_zipWith]
  apply zipWith_congr
  intro q hq k hk
  have hlen := hQ m hm q hq
  have hkn : k < q.length := hlen ▸ hA r hr k hk
  rw [← hlen, dot_oneHot q k hkn]

theorem critic_update_ok (stepF : StepFun) (st : CriticNetwork)
    (obs target : T3) (A : List (List ℕ)) (S E : ℕ)
    (hobs : Wf3 obs S E st.net.state_dim)
    (hA : Wf2 A S E)
    (hrange : ∀ r ∈ A, ∀ k ∈ r, k < st.num_outs)
    (hw3 : st.net.l3.weight.length = st.num_outs)
    (hb3 : st.net.l3.bias.length = st.num_outs)
    (htgt : Wf3 target S E 1) :
    CriticNetwork.batch_update stepF st obs (idxT3 A) target false =
      .ok { st with
            optim := (stepF (st.optim, st.net)).1
            net := (stepF (st.optim, st.net)).2
            losses := pushTrim st.losses (criticLossVal st.net obs A target)
            critic_loss :=
              ((meanList (pushTrim st.losses (criticLossVal st.net obs A target)) : ℝ)
                : EReal) } := by
  have hD : min st.net.l3.weight.length st.net.l3.bias.length = st.num_outs := by
    rw [hw3, hb3, min_self]
  have hQwf : Wf3 (obs.map fun m => m.map st.net.forward) S E st.num_outs :=
    Wf3_forward st.net obs S E st.num_outs hobs hD
  have hSelwf : Wf3 (A.map fun r => r.map (oneHot st.num_outs)) S E st.num_outs :=
    Wf3_of_idx A S E st.num_outs hA (oneHot st.num_outs) (oneHot_length st.num_outs)
  have hdotwf : Wf3 (criticSel st.net obs A) S E 1 := by
    unfold criticSel
    exact Wf3_zipSel _ A _ S E st.num_outs 1 hQwf hA fun a b => rfl
  unfold CriticNetwork.batch_update
  rw [forwardBatch_ok st.net obs S E hobs, andThenE_ok]
  rw [if_neg (by simp), oneHotSelE_ok st.num_outs A hrange, andThenE_ok]
  unfold weightedSum mul3
  rw [bc3_ok (· * ·) _ _ S E st.num_outs hQwf hSelwf, andThenE_ok, andThenE_ok]
  rw [sumLast_mul_oneHot _ A st.num_outs
    (fun m hm q hq => (hQwf.2 m hm).2 q hq) hrange]
  have hfold : List.zipWith (List.zipWith fun q (k : ℕ) => [q.getD k 0])
      (obs.map fun m => m.map st.net.forward) A = criticSel st.net obs A := rfl
  rw [hfold]
  unfold mseLoss sqDiff3
  rw [bc3_ok _ target _ S E 1 htgt hdotwf, andThenE_ok, andThenE_ok]
  rfl

/-- The selection (`dot_prd`) stage on its own: multiplying the forward
output with the one-hot tensors and summing over the output dimension
picks out, per example, the output entry at the action index. -/
theorem weightedSum_sel (net : NeuralNet) (obs : T3) (A : List (List ℕ)) (n S E : ℕ)
    (hobs : Wf3 obs S E net.state_dim)
    (hA : Wf2 A S E)
    (hrange : ∀ r ∈ A, ∀ k ∈ r, k < n)
    (hw3 : net.l3.weight.length = n) (hb3 : net.l3.bias.length = n) :
    weightedSum (obs.map fun m => m.map net.forward) (A.map fun r => r.map (oneHot n)) =
      .ok (criticSel net obs A) := by
  have hD : min net.l3.weight.length net.l3.bias.length = n := by rw [hw3, hb3, min_self]
  have hQwf : Wf3 (obs.map fun m => m.map net.forward) S E n :=
    Wf3_forward net obs S E n hobs hD
  have hSelwf : Wf3 (A.map fun r => r.map (oneHot n)) S E n :=
    Wf3_of_idx A S E n hA (oneHot n) (oneHot_length n)
  unfold weightedSum mul3
  rw [bc3_ok (· * ·) _ _ S E n hQwf hSelwf, andThenE_ok]
  rw [sumLast_mul_oneHot _ A n (fun m hm q hq => (hQwf.2 m hm).2 q hq) hrange]
  rfl


/- ### The actor update on a well-shaped batch -/

theorem Wf3_entropyB (P : T3) (S E D : ℕ) (hP : Wf3 P S E D) :
    Wf3 (entropyB P) S E 1 :=
  Wf3_map2 P S E D 1 hP (fun p => [entropyVec p]) fun _ _ => rfl

theorem Wf3_scale3 (c : ℝ) (x : T3) (S E D : ℕ) (hx : Wf3 x S E D) :
    Wf3 (scale3 c x) S E D :=
  Wf3_map2 x S E D D hx (fun v => v.map (c * ·)) fun v hv => by simp [hv]

theorem Wf3_neg3 (x : T3) (S E D : ℕ) (hx : Wf3 x S E D) :
    Wf3 (neg3 x) S E D :=
  Wf3_map2 x S E D D hx (fun v => v.map Neg.neg) fun v hv => by simp [hv]

theorem logProb2_ok (P : T3) (A : List (List ℕ)) (n S E : ℕ)
    (hP : Wf3 P S E n) (hA : Wf2 A S E)
    (hrange : ∀ r ∈ A, ∀ k ∈ r, k < n) :
    logProb2 P (A.map fun r => r.map fun k : ℕ => (k : ℝ)) =
      .ok (List.zipWith (List.zipWith fun p (k : ℕ) => Real.log (p.getD k 0)) P A) := by
  unfold logProb2
  have hlen1 : P.length = (A.map fun r => r.map fun k : ℕ => (k : ℝ)).length := by
    simp [hP.1, hA.1]
  have hstep : bcE (bcE logProbLeaf) P (A.map fun r => r.map fun k : ℕ => (k : ℝ)) =
      .ok (List.zipWith
        (fun m r' => List.zipWith
          (fun p v => Real.log (p.getD (intTrunc v).toNat 0)) m r')
        P (A.map fun r => r.map fun k : ℕ => (k : ℝ))) := by
    refine bcE_ok _ _ _ _ hlen1 ?_
    intro pr hpr
    obtain ⟨hm, hr'⟩ := List.of_mem_zip hpr
    rcases List.mem_map.1 hr' with ⟨r, hrA, heq⟩
    have hlen2 : pr.1.length = pr.2.length := by
      rw [← heq, (hP.2 pr.1 hm).1]
      simp [hA.2 r hrA]
    refine bcE_ok _ _ _ _ hlen2 ?_
    intro q hq
    obtain ⟨hq1, hq2⟩ := List.of_mem_zip hq
    rw [← heq] at hq2
    rcases List.mem_map.1 hq2 with ⟨k, hkr, hkeq⟩
    unfold logProbLeaf
    rw [if_pos]
    rw [← hkeq, intTrunc_natCast]
    constructor
    · exact Int.natCast_nonneg k
    · have h1 : k < n := hrange r hrA k hkr
      have h2 : q.1.length = n := (hP.2 pr.1 hm).2 q.1 hq1
      rw [h2]
      exact_mod_cast h1
  rw [hstep]
  apply congrArg Except.ok
  rw [List.zipWith_map_right]
  apply zipWith_congr
  intro m _ r _
  rw [List.zipWith_map_right]
  apply zipWith_congr
  intro p _ k _
  rw [intTrunc_natCast, Int.toNat_natCast]

/-- The per-example negative log-probability of the taken action, as a
trailing-singleton tensor (`neglogp` in the source). -/
noncomputable def nlpT (P : T3) (A : List (List ℕ)) : T3 :=
  List.zipWith (List.zipWith fun p (k : ℕ) => [-Real.log (p.getD k 0)]) P A

theorem nlp_fold (P : T3) (A : List (List ℕ)) :
    unsqueezeLast
      ((List.zipWith (List.zipWith fun p (k : ℕ) => Real.log (p.getD k 0)) P A).map
        fun r => r.map Neg.neg) = nlpT P A := by
  unfold unsqueezeLast nlpT
  rw [List.map_map, List.map_zipWith]
  apply zipWith_congr
  intro m _ r _
  simp only [Function.comp_apply, List.map_map, List.map_zipWith]

theorem Wf3_nlpT (P : T3) (A : List (List ℕ)) (S E D : ℕ)
    (hP : Wf3 P S E D) (hA : Wf2 A S E) : Wf3 (nlpT P A) S E 1 :=
  Wf3_zipSel P A _ S E D 1 hP hA fun _ _ => rfl

/-- The scalar loss a successful index-path (`action_distribution = False`)
actor update records: the batch mean of
`adv * (-log pi(a)) - beta * entropy`. -/
noncomputable def actorLossVal (net : NeuralNet) (beta : ℝ) (obs : T3)
    (A : List (List ℕ)) (adv : T3) : ℝ :=
  mean3 (zip3 (· - ·)
    (zip3 (· * ·) adv (nlpT (obs.map fun m => m.map net.forward) A))
    (scale3 beta (entropyB (obs.map fun m => m.map net.forward))))

/-- The scalar loss a successful distribution-path
(`action_distribution = True`) actor update records: the batch mean of
`-adv - beta * entropy`. -/
noncomputable def actorLossValDist (net : NeuralNet) (beta : ℝ) (obs adv : T3) : ℝ :=
  mean3 (zip3 (· - ·) (neg3 adv)
    (scale3 beta (entropyB (obs.map fun m => m.map net.forward))))

theorem actor_update_ok (stepF : StepFun) (st : ActorNetwork)
    (obs adv : T3) (A : List (List ℕ)) (S E : ℕ)
    (hobs : Wf3 obs S E st.net.state_dim)
    (hA : Wf2 A S E)
    (hrange : ∀ r ∈ A, ∀ k ∈ r, k < st.num_outs)
    (hw3 : st.net.l3.weight.length = st.num_outs)
    (hb3 : st.net.l3.bias.length = st.num_outs)
    (hadv : Wf3 adv S E 1) :
    ActorNetwork.batch_update stepF st obs (idxT3 A) adv false =
      .ok { st with
            optim := (stepF (st.optim, st.net)).1
            net := (stepF (st.optim, st.net)).2
            losses := pushTrim st.losses (actorLossVal st.net st.beta obs A adv)
            actor_loss :=
              ((meanList (pushTrim st.losses (actorLossVal st.net st.beta obs A adv)) : ℝ)
                : EReal) } := by
  have hD : min st.net.l3.weight.length st.net.l3.bias.length = st.num_outs := by
    rw [hw3, hb3, min_self]
  have hPwf : Wf3 (obs.map fun m => m.map st.net.forward) S E st.num_outs :=
    Wf3_forward st.net obs S E st.num_outs hobs hD
  have hnlpwf : Wf3 (nlpT (obs.map fun m => m.map st.net.forward) A) S E 1 :=
    Wf3_nlpT _ A S E st.num_outs hPwf hA
  have hpgwf : Wf3 (zip3 (· * ·) adv (nlpT (obs.map fun m => m.map st.net.forward) A))
      S E 1 := Wf3_zip3 _ adv _ S E 1 hadv hnlpwf
  have hebwf : Wf3 (scale3 st.beta (entropyB (obs.map fun m => m.map st.net.forward)))
      S E 1 :=
    Wf3_scale3 st.beta _ S E 1 (Wf3_entropyB _ S E st.num_outs hPwf)
  unfold ActorNetwork.batch_update
  rw [forwardBatch_ok st.net obs S E hobs, andThenE_ok, if_neg (by simp)]
  rw [squeezeLastE_idx, andThenE_ok]
  rw [logProb2_ok _ A st.num_outs S E hPwf hA hrange, andThenE_ok]
  rw [nlp_fold]
  unfold mul3
  rw [bc3_ok (· * ·) adv _ S E 1 hadv hnlpwf, andThenE_ok]
  unfold sub3
  rw [bc3_ok (· - ·) _ _ S E 1 hpgwf hebwf, andThenE_ok]
  rfl

theorem actor_update_dist_ok (stepF : StepFun) (st : ActorNetwork)
    (obs act adv : T3) (S E : ℕ)
    (hobs : Wf3 obs S E st.net.state_dim)
    (hadv : Wf3 adv S E 1) :
    ActorNetwork.batch_update stepF st obs act adv true =
      .ok { st with
            optim := (stepF (st.optim, st.net)).1
            net := (stepF (st.optim, st.net)).2
            losses := pushTrim st.losses (actorLossValDist st.net st.beta obs adv)
            actor_loss :=
              ((meanList (pushTrim st.losses (actorLossValDist st.net st.beta obs adv)) : ℝ)
                : EReal) } := by
  have hPwf : Wf3 (obs.map fun m => m.map st.net.forward) S E
      (min st.net.l3.weight.length st.net.l3.bias.length) :=
    Wf3_forward st.net obs S E _ hobs rfl
  have hnegwf : Wf3 (neg3 adv) S E 1 := Wf3_neg3 adv S E 1 hadv
  have hebwf : Wf3 (scale3 st.beta (entropyB (obs.map fun m => m.map st.net.forward)))
      S E 1 :=
    Wf3_scale3 st.beta _ S E 1 (Wf3_entropyB _ S E _ hPwf)
  unfold ActorNetwork.batch_update
  rw [forwardBatch_ok st.net obs S E hobs, andThenE_ok, if_pos rfl, andThenE_ok]
  unfold sub3
  rw [bc3_ok (· - ·) _ _ S E 1 hnegwf hebwf, andThenE_ok]
  rfl

/- ### Inverting a successful update -/

theorem critic_update_ok_inv (stepF : StepFun) (st : CriticNetwork)
    (obs act target : T3) (b : Bool) (st' : CriticNetwork)
    (h : CriticNetwork.batch_update stepF st obs act target b = .ok st') :
    ∃ L, st' = { st with
      optim := (stepF (st.optim, st.net)).1
      net := (stepF (st.optim, st.net)).2
      losses := pushTrim st.losses L
      critic_loss := ((meanList (pushTrim st.losses L) : ℝ) : EReal) } := by
  unfold CriticNetwork.batch_update at h
  cases hQ : st.net.forwardBatch obs with
  | error e => rw [hQ, andThenE_error] at h; exact Except.noConfusion h
  | ok Q =>
    rw [hQ, andThenE_ok] at h
    cases hsel : (if b then Except.ok act else oneHotSelE st.num_outs act) with
    | error e => rw [hsel, andThenE_error] at h; exact Except.noConfusion h
    | ok q_sel =>
      rw [hsel, andThenE_ok] at h
      cases hws : weightedSum Q q_sel with
      | error e => rw [hws, andThenE_error] at h; exact Except.noConfusion h
      | ok dp =>
        rw [hws, andThenE_ok] at h
        cases hml : mseLoss target dp with
        | error e => rw [hml, andThenE_error] at h; exact Except.noConfusion h
        | ok L =>
          rw [hml, andThenE_ok] at h
          exact ⟨L, (Except.ok.inj h).symm⟩

theorem actor_update_ok_inv (stepF : StepFun) (st : ActorNetwork)
    (obs act adv : T3) (b : Bool) (st' : ActorNetwork)
    (h : ActorNetwork.batch_update stepF st obs act adv b = .ok st') :
    ∃ L, st' = { st with
      optim := (stepF (st.optim, st.net)).1
      net := (stepF (st.optim, st.net)).2
      losses := pushTrim st.losses L
      actor_loss := ((meanList (pushTrim st.losses L) : ℝ) : EReal) } := by
  unfold ActorNetwork.batch_update at h
  cases hP : st.net.forwardBatch obs with
  | error e => rw [hP, andThenE_error] at h; exact Except.noConfusion h
  | ok P =>
    rw [hP, andThenE_ok] at h
    cases hpg : (if b then (Except.ok (neg3 adv) : Except Err T3) else
        andThenE (squeezeLastE act) fun a =>
        andThenE (logProb2 P a) fun lp =>
          mul3 adv (unsqueezeLast (lp.map fun r => r.map Neg.neg))) with
    | error e => rw [hpg, andThenE_error] at h; exact Except.noConfusion h
    | ok pg =>
      rw [hpg, andThenE_ok] at h
      cases hdf : sub3 pg (scale3 st.beta (entropyB P)) with
      | error e => rw [hdf, andThenE_error] at h; exact Except.noConfusion h
      | ok diff =>
        rw [hdf, andThenE_ok] at h
        exact ⟨mean3 diff, (Except.ok.inj h).symm⟩

/- ### The bounded loss history -/

theorem pushTrim_getLast (l : List ℝ) (x : ℝ) : (pushTrim l x).getLast? = some x := by
  unfold pushTrim
  by_cases h : 20 < (l ++ [x]).length
  · rw [if_pos h]
    cases l with
    | nil => simp at h
    | cons a t => simp
  · rw [if_neg h]
    simp

theorem pushTrim_inj (l : List ℝ) (x y : ℝ) (h : pushTrim l x = pushTrim l y) :
    x = y := by
  have h1 := pushTrim_getLast l x
  rw [h, pushTrim_getLast l y] at h1
  exact (Option.some.inj h1).symm

theorem pushTrim_drop (l : List ℝ) (x : ℝ) :
    pushTrim (l.drop (l.length - 20)) x = (l ++ [x]).drop ((l ++ [x]).length - 20) := by
  unfold pushTrim
  by_cases h : l.length < 20
  · have h0 : l.length - 20 = 0 := by omega
    have h1 : (l ++ [x]).length - 20 = 0 := by simp; omega
    rw [h0, h1]
    simp only [List.drop_zero]
    rw [if_neg (by simp; omega)]
  · have h20 : (l.drop (l.length - 20)).length = 20 := by
      rw [List.length_drop]; omega
    rw [if_pos (by simp [h20])]
    have h2 : (l ++ [x]).length - 20 = (l.length - 20) + 1 := by simp; omega
    rw [h2]
    rw [List.drop_append_of_le_length (by omega)]
    cases hd : l.drop (l.length - 20) with
    | nil => rw [hd] at h20; simp at h20
    | cons a t =>
      have : l.drop (l.length - 20 + 1) = t := by
        have := List.tail_drop l (l.length - 20)
        rw [hd] at this
        simpa using this.symm
      rw [this]
      rfl

theorem pushTrim_length (l : List ℝ) (x : ℝ) (hl : l.length ≤ 20) :
    (pushTrim l x).length = min (l.length + 1) 20 := by
  unfold pushTrim
  by_cases h : 20 < (l ++ [x]).length
  · rw [if_pos h]; simp at h ⊢; omega
  · rw [if_neg h]; simp at h ⊢; omega

/- ### Failing updates -/

/-- Two batch shapes clash when some dimension differs and neither of the
differing sizes is 1 (the broadcastable case): exactly the situations the
library's broadcasting rejects. -/
abbrev BatchClash (S E S' E' : ℕ) : Prop :=
  (S ≠ S' ∧ S ≠ 1 ∧ S' ≠ 1) ∨ (E ≠ E' ∧ E ≠ 1 ∧ E' ≠ 1)

theorem mem_zip_right_of_mem {α β : Type} :
    ∀ (xs : List α) (ys : List β) (b : β), xs.length = ys.length → b ∈ ys →
      ∃ a ∈ xs, (a, b) ∈ xs.zip ys := by
  intro xs
  induction xs with
  | nil => intro ys b hlen hb; cases ys with
    | nil => simp at hb
    | cons y ys => simp at hlen
  | cons x xs ih =>
    intro ys b hlen hb
    cases ys with
    | nil => simp at hb
    | cons y ys =>
      rcases List.mem_cons.1 hb with rfl | hb'
      · exact ⟨x, List.mem_cons_self x xs, List.mem_cons_self _ _⟩
      · obtain ⟨a, ha, hab⟩ := ih ys b (by simpa using hlen) hb'
        exact ⟨a, List.mem_cons_of_mem x ha, List.mem_cons_of_mem _ hab⟩

theorem bcE_row_err {α β γ : Type} (leaf : α → β → Except Err γ)
    (m : List α) (m' : List β) (E E' : ℕ)
    (hm : m.length = E) (hm' : m'.length = E')
    (hEE' : E ≠ E') (hE1 : E ≠ 1) (hE'1 : E' ≠ 1) :
    bcE leaf m m' = .error .shapeMismatch :=
  bcE_error leaf m m' (by rw [hm, hm']; exact hEE') (by rw [hm]; exact hE1)
    (by rw [hm']; exact hE'1)

/-- A two-level elementwise operation on nonempty batches whose second
dimensions clash (differ, with neither size 1) raises a shape error: the
rows reached - by the equal-length zip or by broadcasting a length-one
side - all fail, and at least one row is reached. -/
theorem bcE_bcE_err_dim1 {α β γ : Type} (leaf : α → β → Except Err γ)
    (x : List (List α)) (y : List (List β)) (S S' E E' : ℕ)
    (hxl : x.length = S) (hxr : ∀ m ∈ x, m.length = E)
    (hyl : y.length = S') (hyr : ∀ m ∈ y, m.length = E')
    (hS : 0 < S) (hS' : 0 < S')
    (hEE' : E ≠ E') (hE1 : E ≠ 1) (hE'1 : E' ≠ 1) :
    bcE (bcE leaf) x y = .error .shapeMismatch := by
  have hrow : ∀ m ∈ x, ∀ m' ∈ y, bcE leaf m m' = .error .shapeMismatch :=
    fun m hm m' hm' =>
      bcE_row_err leaf m m' E E' (hxr m hm) (hyr m' hm') hEE' hE1 hE'1
  by_cases heq : x.length = y.length
  · unfold bcE
    rw [if_pos heq]
    apply mapE_error_of
    · intro p hp
      obtain ⟨h1, h2⟩ := List.of_mem_zip hp
      exact Or.inl (hrow p.1 h1 p.2 h2)
    · have hlen : 0 < (x.zip y).length := by
        rw [List.length_zip, hxl, hyl]
        omega
      obtain ⟨p, hp⟩ := List.exists_mem_of_length_pos hlen
      obtain ⟨h1, h2⟩ := List.of_mem_zip hp
      exact ⟨p, hp, hrow p.1 h1 p.2 h2⟩
  · cases x with
    | nil => simp at hxl; omega
    | cons x0 xt =>
      cases y with
      | nil => simp at hyl; omega
      | cons y0 yt =>
        cases xt with
        | nil =>
          rw [bcE_one_left (bcE leaf) x0 (y0 :: yt) (by simpa using heq)]
          apply mapE_error_of
          · intro m' hm'
            exact Or.inl (hrow x0 (List.mem_cons_self x0 []) m' hm')
          · exact ⟨y0, List.mem_cons_self y0 yt,
              hrow x0 (List.mem_cons_self x0 []) y0 (List.mem_cons_self y0 yt)⟩
        | cons x1 xt' =>
          cases yt with
          | nil =>
            rw [bcE_one_right (bcE leaf) (x0 :: x1 :: xt') y0 (by simp)]
            apply mapE_error_of
            · intro m hm
              exact Or.inl (hrow m hm y0 (List.mem_cons_self y0 []))
            · exact ⟨x0, List.mem_cons_self x0 (x1 :: xt'),
                hrow x0 (List.mem_cons_self x0 (x1 :: xt')) y0 (List.mem_cons_self y0 [])⟩
          | cons y1 yt' =>
            unfold bcE
            rw [if_neg heq]

theorem oneHotE_natCast_oor (n k : ℕ) (h : n ≤ k) :
    oneHotE n (k : ℤ) = .error .indexOutOfRange := by
  unfold oneHotE
  rw [if_neg]
  rintro ⟨-, h2⟩
  have : k < n := by exact_mod_cast h2
  omega

theorem oneHotSelE_err (n : ℕ) (A : List (List ℕ))
    (hbad : ∃ r ∈ A, ∃ k ∈ r, n ≤ k) :
    oneHotSelE n (idxT3 A) = .error .indexOutOfRange := by
  unfold oneHotSelE
  rw [squeezeLastE_idx, andThenE_ok]
  obtain ⟨r0, hr0, k0, hk0, hge⟩ := hbad
  have hleaf : ∀ r : List ℕ, ∀ v ∈ r.map fun k : ℕ => (k : ℝ),
      oneHotE n (intTrunc v) = .error .indexOutOfRange ∨
        ∃ b, oneHotE n (intTrunc v) = .ok b := by
    intro r v hv
    rcases List.mem_map.1 hv with ⟨k, _, rfl⟩
    rw [intTrunc_natCast]
    by_cases hkn : k < n
    · exact Or.inr ⟨_, oneHotE_natCast n k hkn⟩
    · exact Or.inl (oneHotE_natCast_oor n k (by omega))
  apply mapE_error_of
  · intro r' hr'
    rcases List.mem_map.1 hr' with ⟨r, _, rfl⟩
    exact mapE_ok_or_error _ _ _ (hleaf r)
  · refine ⟨r0.map fun k : ℕ => (k : ℝ), List.mem_map_of_mem _ hr0, ?_⟩
    apply mapE_error_of _ _ _ (hleaf r0)
    refine ⟨(k0 : ℝ), List.mem_map_of_mem _ hk0, ?_⟩
    rw [intTrunc_natCast]
    exact oneHotE_natCast_oor n k0 hge

theorem logProbLeaf_ok_or_err (p : Vec) (v : ℝ) :
    logProbLeaf p v = .error .indexOutOfRange ∨ ∃ b, logProbLeaf p v = .ok b := by
  unfold logProbLeaf
  by_cases h : 0 ≤ intTrunc v ∧ intTrunc v < (p.length : ℤ)
  · exact Or.inr ⟨_, by rw [if_pos h]⟩
  · exact Or.inl (by rw [if_neg h])

theorem logProb2_err (P : T3) (A : List (List ℕ)) (n S E : ℕ)
    (hP : Wf3 P S E n) (hA : Wf2 A S E)
    (hbad : ∃ r ∈ A, ∃ k ∈ r, n ≤ k) :
    logProb2 P (A.map fun r => r.map fun k : ℕ => (k : ℝ)) =
      .error .indexOutOfRange := by
  obtain ⟨r0, hr0, k0, hk0, hge⟩ := hbad
  unfold logProb2
  have hlen1 : P.length = (A.map fun r => r.map fun k : ℕ => (k : ℝ)).length := by
    simp [hP.1, hA.1]
  unfold bcE
  rw [if_pos hlen1]
  have hrow : ∀ pr ∈ P.zip (A.map fun r => r.map fun k : ℕ => (k : ℝ)),
      bcE logProbLeaf pr.1 pr.2 = .error .indexOutOfRange ∨
        ∃ bs, bcE logProbLeaf pr.1 pr.2 = .ok bs := by
    intro pr hpr
    obtain ⟨hm, hr'⟩ := List.of_mem_zip hpr
    rcases List.mem_map.1 hr' with ⟨r, hrA, heq⟩
    have hlen2 : pr.1.length = pr.2.length := by
      rw [← heq, (hP.2 pr.1 hm).1]
      simp [hA.2 r hrA]
    unfold bcE
    rw [if_pos hlen2]
    exact mapE_ok_or_error _ _ _ fun q _ => logProbLeaf_ok_or_err q.1 q.2
  apply mapE_error_of _ _ _ fun pr hpr => hrow pr hpr
  have hr0' : (r0.map fun k : ℕ => (k : ℝ)) ∈
      A.map fun r => r.map fun k : ℕ => (k : ℝ) := List.mem_map_of_mem _ hr0
  obtain ⟨m0, hm0, hpair⟩ := mem_zip_right_of_mem P _ _ hlen1 hr0'
  refine ⟨(m0, r0.map fun k : ℕ => (k : ℝ)), hpair, ?_⟩
  show bcE logProbLeaf m0 _ = _
  unfold bcE
  have hlen2 : m0.length = (r0.map fun k : ℕ => (k : ℝ)).length := by
    rw [(hP.2 m0 hm0).1]
    simp [hA.2 r0 hr0]
  rw [if_pos hlen2]
  have hk0' : ((k0 : ℕ) : ℝ) ∈ r0.map fun k : ℕ => (k : ℝ) := List.mem_map_of_mem _ hk0
  obtain ⟨p0, hp0, hqpair⟩ := mem_zip_right_of_mem m0 _ _ hlen2 hk0'
  apply mapE_error_of _ _ _ fun q _ => logProbLeaf_ok_or_err q.1 q.2
  refine ⟨(p0, ((k0 : ℕ) : ℝ)), hqpair, ?_⟩
  show logProbLeaf p0 _ = _
  unfold logProbLeaf
  rw [if_neg]
  rw [intTrunc_natCast]
  rintro ⟨-, h2⟩
  rw [(hP.2 m0 hm0).2 p0 hp0] at h2
  have : k0 < n := by exact_mod_cast h2
  omega

/-- One-hot critic update with an action index at or above `num_outs`:
the one-hot encoding raises before any tensor arithmetic. -/
theorem critic_update_oor (stepF : StepFun) (st : CriticNetwork)
    (obs target : T3) (A : List (List ℕ)) (S E : ℕ)
    (hobs : Wf3 obs S E st.net.state_dim)
    (hbad : ∃ r ∈ A, ∃ k ∈ r, st.num_outs ≤ k) :
    CriticNetwork.batch_update stepF st obs (idxT3 A) target false =
      .error .indexOutOfRange := by
  unfold CriticNetwork.batch_update
  rw [forwardBatch_ok st.net obs S E hobs, andThenE_ok, if_neg (by simp),
    oneHotSelE_err st.num_outs A hbad, andThenE_error]

/-- One-hot critic update whose action batch dimension neither matches the
observation batch dimension nor is broadcastable (size one): the
elementwise product raises a shape error. -/
theorem critic_update_shape_err (stepF : StepFun) (st : CriticNetwork)
    (obs target : T3) (A : List (List ℕ)) (S E S' E' : ℕ)
    (hobs : Wf3 obs S E st.net.state_dim)
    (hA : Wf2 A S' E')
    (hrange : ∀ r ∈ A, ∀ k ∈ r, k < st.num_outs)
    (hSS' : S ≠ S') (hS1 : S ≠ 1) (hS'1 : S' ≠ 1) :
    CriticNetwork.batch_update stepF st obs (idxT3 A) target false =
      .error .shapeMismatch := by
  unfold CriticNetwork.batch_update
  rw [forwardBatch_ok st.net obs S E hobs, andThenE_ok, if_neg (by simp),
    oneHotSelE_ok st.num_outs A hrange, andThenE_ok]
  unfold weightedSum mul3 bc3
  rw [bcE_error]
  · rfl
  · simp [hobs.1, hA.1]
    omega
  · simp [hobs.1]
    omega
  · simp [hA.1]
    omega

/-- Index-path actor update with an action index at or above the number of
actions: `log_prob` raises before any tensor arithmetic. -/
theorem actor_update_oor (stepF : StepFun) (st : ActorNetwork)
    (obs adv : T3) (A : List (List ℕ)) (S E : ℕ)
    (hobs : Wf3 obs S E st.net.state_dim)
    (hA : Wf2 A S E)
    (hw3 : st.net.l3.weight.length = st.num_outs)
    (hb3 : st.net.l3.bias.length = st.num_outs)
    (hbad : ∃ r ∈ A, ∃ k ∈ r, st.num_outs ≤ k) :
    ActorNetwork.batch_update stepF st obs (idxT3 A) adv false =
      .error .indexOutOfRange := by
  have hD : min st.net.l3.weight.length st.net.l3.bias.length = st.num_outs := by
    rw [hw3, hb3, min_self]
  have hPwf : Wf3 (obs.map fun m => m.map st.net.forward) S E st.num_outs :=
    Wf3_forward st.net obs S E st.num_outs hobs hD
  unfold ActorNetwork.batch_update
  rw [forwardBatch_ok st.net obs S E hobs, andThenE_ok, if_neg (by simp),
    squeezeLastE_idx, andThenE_ok,
    logProb2_err _ A st.num_outs S E hPwf hA hbad, andThenE_error, andThenE_error]

/-- Index-path actor update whose action batch dimension is incompatible
with the observation batch dimension: `log_prob`'s broadcast raises a
shape error. -/
theorem actor_update_shape_err (stepF : StepFun) (st : ActorNetwork)
    (obs adv : T3) (A : List (List ℕ)) (S E S' E' : ℕ)
    (hobs : Wf3 obs S E st.net.state_dim)
    (hA : Wf2 A S' E')
    (hSS' : S ≠ S') (hS1 : S ≠ 1) (hS'1 : S' ≠ 1) :
    ActorNetwork.batch_update stepF st obs (idxT3 A) adv false =
      .error .shapeMismatch := by
  unfold ActorNetwork.batch_update
  rw [forwardBatch_ok st.net obs S E hobs, andThenE_ok, if_neg (by simp),
    squeezeLastE_idx, andThenE_ok]
  unfold logProb2
  rw [bcE_error]
  · rfl
  · simp [hobs.1, hA.1]
    omega
  · simp [hobs.1]
    omega
  · simp [hA.1]
    omega

/-- One-hot critic update with an integer action index outside
`[0, num_outs)` - negative or too large: the one-hot encoding raises. -/
theorem critic_update_oorZ (stepF : StepFun) (st : CriticNetwork)
    (obs target : T3) (A : List (List ℤ)) (S E : ℕ)
    (hobs : Wf3 obs S E st.net.state_dim)
    (hbad : ∃ r ∈ A, ∃ k ∈ r, k < 0 ∨ (st.num_outs : ℤ) ≤ k) :
    CriticNetwork.batch_update stepF st obs (idxT3Z A) target false =
      .error .indexOutOfRange := by
  unfold CriticNetwork.batch_update
  rw [forwardBatch_ok st.net obs S E hobs, andThenE_ok, if_neg (by simp),
    oneHotSelE_errZ st.num_outs A hbad, andThenE_error]

theorem logProb2_errZ (P : T3) (A : List (List ℤ)) (n S E : ℕ)
    (hP : Wf3 P S E n) (hA : Wf2 A S E)
    (hbad : ∃ r ∈ A, ∃ k ∈ r, k < 0 ∨ (n : ℤ) ≤ k) :
    logProb2 P (A.map fun r => r.map fun k : ℤ => (k : ℝ)) =
      .error .indexOutOfRange := by
  obtain ⟨r0, hr0, k0, hk0, hbadk⟩ := hbad
  unfold logProb2
  have hlen1 : P.length = (A.map fun r => r.map fun k : ℤ => (k : ℝ)).length := by
    simp [hP.1, hA.1]
  unfold bcE
  rw [if_pos hlen1]
  have hrow : ∀ pr ∈ P.zip (A.map fun r => r.map fun k : ℤ => (k : ℝ)),
      bcE logProbLeaf pr.1 pr.2 = .error .indexOutOfRange ∨
        ∃ bs, bcE logProbLeaf pr.1 pr.2 = .ok bs := by
    intro pr hpr
    obtain ⟨hm, hr'⟩ := List.of_mem_zip hpr
    rcases List.mem_map.1 hr' with ⟨r, hrA, heq⟩
    have hlen2 : pr.1.length = pr.2.length := by
      rw [← heq, (hP.2 pr.1 hm).1]
      simp [hA.2 r hrA]
    unfold bcE
    rw [if_pos hlen2]
    exact mapE_ok_or_error _ _ _ fun q _ => logProbLeaf_ok_or_err q.1 q.2
  apply mapE_error_of _ _ _ fun pr hpr => hrow pr hpr
  have hr0' : (r0.map fun k : ℤ => (k : ℝ)) ∈
      A.map fun r => r.map fun k : ℤ => (k : ℝ) := List.mem_map_of_mem _ hr0
  obtain ⟨m0, hm0, hpair⟩ := mem_zip_right_of_mem P _ _ hlen1 hr0'
  refine ⟨(m0, r0.map fun k : ℤ => (k : ℝ)), hpair, ?_⟩
  show bcE logProbLeaf m0 _ = _
  unfold bcE
  have hlen2 : m0.length = (r0.map fun k : ℤ => (k : ℝ)).length := by
    rw [(hP.2 m0 hm0).1]
    simp [hA.2 r0 hr0]
  rw [if_pos hlen2]
  have hk0' : ((k0 : ℤ) : ℝ) ∈ r0.map fun k : ℤ => (k : ℝ) := List.mem_map_of_mem _ hk0
  obtain ⟨p0, hp0, hqpair⟩ := mem_zip_right_of_mem m0 _ _ hlen2 hk0'
  apply mapE_error_of _ _ _ fun q _ => logProbLeaf_ok_or_err q.1 q.2
  refine ⟨(p0, ((k0 : ℤ) : ℝ)), hqpair, ?_⟩
  show logProbLeaf p0 _ = _
  unfold logProbLeaf
  rw [if_neg]
  rw [intTrunc_intCast]
  rintro ⟨h1, h2⟩
  rw [(hP.2 m0 hm0).2 p0 hp0] at h2
  rcases hbadk with h | h <;> omega

/-- Index-path actor update with an integer action index outside
`[0, num_outs)` - negative or too large: `log_prob` raises. -/
theorem actor_update_oorZ (stepF : StepFun) (st : ActorNetwork)
    (obs adv : T3) (A : List (List ℤ)) (S E : ℕ)
    (hobs : Wf3 obs S E st.net.state_dim)
    (hA : Wf2 A S E)
    (hw3 : st.net.l3.weight.length = st.num_outs)
    (hb3 : st.net.l3.bias.length = st.num_outs)
    (hbad : ∃ r ∈ A, ∃ k ∈ r, k < 0 ∨ (st.num_outs : ℤ) ≤ k) :
    ActorNetwork.batch_update stepF st obs (idxT3Z A) adv false =
      .error .indexOutOfRange := by
  have hD : min st.net.l3.weight.length st.net.l3.bias.length = st.num_outs := by
    rw [hw3, hb3, min_self]
  have hPwf : Wf3 (obs.map fun m => m.map st.net.forward) S E st.num_outs :=
    Wf3_forward st.net obs S E st.num_outs hobs hD
  unfold ActorNetwork.batch_update
  rw [forwardBatch_ok st.net obs S E hobs, andThenE_ok, if_neg (by simp),
    squeezeLastE_idxZ, andThenE_ok,
    logProb2_errZ _ A st.num_outs S E hPwf hA hbad, andThenE_error, andThenE_error]

/-- One-hot critic update whose action batch shape clashes with the
observation batch shape in either dimension. -/
theorem critic_actClash_err (stepF : StepFun) (st : CriticNetwork)
    (obs target : T3) (A : List (List ℕ)) (S E S' E' : ℕ)
    (hobs : Wf3 obs S E st.net.state_dim)
    (hA : Wf2 A S' E')
    (hrange : ∀ r ∈ A, ∀ k ∈ r, k < st.num_outs)
    (hS : 0 < S) (hS' : 0 < S')
    (hclash : BatchClash S E S' E') :
    CriticNetwork.batch_update stepF st obs (idxT3 A) target false =
      .error .shapeMismatch := by
  rcases hclash with ⟨h1, h2, h3⟩ | ⟨h1, h2, h3⟩
  · exact critic_update_shape_err stepF st obs target A S E S' E' hobs hA hrange h1 h2 h3
  · have hQwf := Wf3_forward st.net obs S E _ hobs rfl
    have hSelwf := Wf3_of_idx A S' E' st.num_outs hA (oneHot st.num_outs)
      (oneHot_length st.num_outs)
    unfold CriticNetwork.batch_update
    rw [forwardBatch_ok st.net obs S E hobs, andThenE_ok, if_neg (by simp),
      oneHotSelE_ok st.num_outs A hrange, andThenE_ok]
    unfold weightedSum mul3 bc3
    rw [bcE_bcE_err_dim1 _ _ _ S S' E E' (by simp [hobs.1])
      (fun m hm => (hQwf.2 m hm).1) (by simp [hA.1])
      (fun m hm => (hSelwf.2 m hm).1) hS hS' h1 h2 h3]
    rfl

/-- One-hot critic update whose target batch shape clashes with the
(consistent) observation/action batch shape in either dimension: the MSE
loss raises. -/
theorem critic_tgtClash_err (stepF : StepFun) (st : CriticNetwork)
    (obs target : T3) (A : List (List ℕ)) (S E St Et : ℕ)
    (hobs : Wf3 obs S E st.net.state_dim)
    (hA : Wf2 A S E)
    (hrange : ∀ r ∈ A, ∀ k ∈ r, k < st.num_outs)
    (hw3 : st.net.l3.weight.length = st.num_outs)
    (hb3 : st.net.l3.bias.length = st.num_outs)
    (htl : target.length = St) (htr : ∀ m ∈ target, m.length = Et)
    (hS : 0 < S) (hSt : 0 < St)
    (hclash : BatchClash St Et S E) :
    CriticNetwork.batch_update stepF st obs (idxT3 A) target false =
      .error .shapeMismatch := by
  have hD : min st.net.l3.weight.length st.net.l3.bias.length = st.num_outs := by
    rw [hw3, hb3, min_self]
  have hQwf : Wf3 (obs.map fun m => m.map st.net.forward) S E st.num_outs :=
    Wf3_forward st.net obs S E st.num_outs hobs hD
  have hdotwf : Wf3 (criticSel st.net obs A) S E 1 := by
    unfold criticSel
    exact Wf3_zipSel _ A _ S E st.num_outs 1 hQwf hA fun a b => rfl
  unfold CriticNetwork.batch_update
  rw [forwardBatch_ok st.net obs S E hobs, andThenE_ok, if_neg (by simp),
    oneHotSelE_ok st.num_outs A hrange, andThenE_ok,
    weightedSum_sel st.net obs A st.num_outs S E hobs hA hrange hw3 hb3, andThenE_ok]
  unfold mseLoss sqDiff3 bc3
  rcases hclash with ⟨h1, h2, h3⟩ | ⟨h1, h2, h3⟩
  · rw [bcE_error _ _ _ (by rw [htl, hdotwf.1]; exact h1) (by rw [htl]; exact h2)
      (by rw [hdotwf.1]; exact h3)]
    rfl
  · rw [bcE_bcE_err_dim1 _ _ _ St S Et E htl htr hdotwf.1
      (fun m hm => (hdotwf.2 m hm).1) hSt hS h1 h2 h3]
    rfl

/-- Distribution-path critic update whose action batch shape clashes with
the observation batch shape in either dimension. -/
theorem critic_dist_actClash_err (stepF : StepFun) (st : CriticNetwork)
    (obs act target : T3) (S E S' E' : ℕ)
    (hobs : Wf3 obs S E st.net.state_dim)
    (hal : act.length = S') (har : ∀ m ∈ act, m.length = E')
    (hS : 0 < S) (hS' : 0 < S')
    (hclash : BatchClash S E S' E') :
    CriticNetwork.batch_update stepF st obs act target true =
      .error .shapeMismatch := by
  have hQwf := Wf3_forward st.net obs S E _ hobs rfl
  unfold CriticNetwork.batch_update
  rw [forwardBatch_ok st.net obs S E hobs, andThenE_ok, if_pos rfl, andThenE_ok]
  unfold weightedSum mul3 bc3
  rcases hclash with ⟨h1, h2, h3⟩ | ⟨h1, h2, h3⟩
  · rw [bcE_error _ _ _ (by simp [hobs.1, hal]; exact h1) (by simp [hobs.1]; exact h2)
      (by rw [hal]; exact h3)]
    rfl
  · rw [bcE_bcE_err_dim1 _ _ _ S S' E E' (by simp [hobs.1])
      (fun m hm => (hQwf.2 m hm).1) hal har hS hS' h1 h2 h3]
    rfl

/-- Distribution-path critic update whose target batch shape clashes with
the (consistent) observation/action batch shape in either dimension. -/
theorem critic_dist_tgtClash_err (stepF : StepFun) (st : CriticNetwork)
    (obs act target : T3) (S E St Et : ℕ)
    (hobs : Wf3 obs S E st.net.state_dim)
    (hact : Wf3 act S E st.num_outs)
    (hw3 : st.net.l3.weight.length = st.num_outs)
    (hb3 : st.net.l3.bias.length = st.num_outs)
    (htl : target.length = St) (htr : ∀ m ∈ target, m.length = Et)
    (hS : 0 < S) (hSt : 0 < St)
    (hclash : BatchClash St Et S E) :
    CriticNetwork.batch_update stepF st obs act target true =
      .error .shapeMismatch := by
  have hD : min st.net.l3.weight.length st.net.l3.bias.length = st.num_outs := by
    rw [hw3, hb3, min_self]
  have hQwf : Wf3 (obs.map fun m => m.map st.net.forward) S E st.num_outs :=
    Wf3_forward st.net obs S E st.num_outs hobs hD
  have hdw : Wf3 (sumLast (zip3 (· * ·) (obs.map fun m => m.map st.net.forward) act))
      S E 1 :=
    Wf3_map2 _ S E st.num_outs 1
      (Wf3_zip3 _ _ _ S E st.num_outs hQwf hact) _ fun v _ => rfl
  unfold CriticNetwork.batch_update
  rw [forwardBatch_ok st.net obs S E hobs, andThenE_ok, if_pos rfl, andThenE_ok]
  unfold weightedSum mul3
  rw [bc3_ok (· * ·) _ act S E st.num_outs hQwf hact, andThenE_ok, andThenE_ok]
  unfold mseLoss sqDiff3 bc3
  rcases hclash with ⟨h1, h2, h3⟩ | ⟨h1, h2, h3⟩
  · rw [bcE_error _ _ _ (by rw [htl, hdw.1]; exact h1) (by rw [htl]; exact h2)
      (by rw [hdw.1]; exact h3)]
    rfl
  · rw [bcE_bcE_err_dim1 _ _ _ St S Et E htl htr hdw.1
      (fun m hm => (hdw.2 m hm).1) hSt hS h1 h2 h3]
    rfl

/-- Distribution-path critic update on consistent shapes: no error. -/
theorem critic_dist_ok (stepF : StepFun) (st : CriticNetwork)
    (obs act target : T3) (S E : ℕ)
    (hobs : Wf3 obs S E st.net.state_dim)
    (hact : Wf3 act S E st.num_outs)
    (hw3 : st.net.l3.weight.length = st.num_outs)
    (hb3 : st.net.l3.bias.length = st.num_outs)
    (htgt : Wf3 target S E 1) :
    isOkE (CriticNetwork.batch_update stepF st obs act target true) = true := by
  have hD : min st.net.l3.weight.length st.net.l3.bias.length = st.num_outs := by
    rw [hw3, hb3, min_self]
  have hQwf : Wf3 (obs.map fun m => m.map st.net.forward) S E st.num_outs :=
    Wf3_forward st.net obs S E st.num_outs hobs hD
  have hdw : Wf3 (sumLast (zip3 (· * ·) (obs.map fun m => m.map st.net.forward) act))
      S E 1 :=
    Wf3_map2 _ S E st.num_outs 1
      (Wf3_zip3 _ _ _ S E st.num_outs hQwf hact) _ fun v _ => rfl
  unfold CriticNetwork.batch_update
  rw [forwardBatch_ok st.net obs S E hobs, andThenE_ok, if_pos rfl, andThenE_ok]
  unfold weightedSum mul3
  rw [bc3_ok (· * ·) _ act S E st.num_outs hQwf hact, andThenE_ok, andThenE_ok]
  unfold mseLoss sqDiff3
  rw [bc3_ok _ target _ S E 1 htgt hdw, andThenE_ok, andThenE_ok]
  rfl

/-- Index-path actor update whose action batch shape clashes with the
observation batch shape in either dimension. -/
theorem actor_actClash_err (stepF : StepFun) (st : ActorNetwork)
    (obs adv : T3) (A : List (List ℕ)) (S E S' E' : ℕ)
    (hobs : Wf3 obs S E st.net.state_dim)
    (hA : Wf2 A S' E')
    (hS : 0 < S) (hS' : 0 < S')
    (hclash : BatchClash S E S' E') :
    ActorNetwork.batch_update stepF st obs (idxT3 A) adv false =
      .error .shapeMismatch := by
  rcases hclash with ⟨h1, h2, h3⟩ | ⟨h1, h2, h3⟩
  · exact actor_update_shape_err stepF st obs adv A S E S' E' hobs hA h1 h2 h3
  · have hPwf := Wf3_forward st.net obs S E _ hobs rfl
    have hvr : ∀ m ∈ (A.map fun r => r.map fun k : ℕ => (k : ℝ)), m.length = E' := by
      intro m hm
      rcases List.mem_map.1 hm with ⟨r, hr, rfl⟩
      simp [hA.2 r hr]
    unfold ActorNetwork.batch_update
    rw [forwardBatch_ok st.net obs S E hobs, andThenE_ok, if_neg (by simp),
      squeezeLastE_idx, andThenE_ok]
    unfold logProb2
    rw [bcE_bcE_err_dim1 logProbLeaf _ _ S S' E E' (by simp [hobs.1])
      (fun m hm => (hPwf.2 m hm).1) (by simp [hA.1]) hvr hS hS' h1 h2 h3]
    rfl

/-- Index-path actor update whose advantage batch shape clashes with the
(consistent) observation/action batch shape in either dimension: the
policy-gradient product raises. -/
theorem actor_advClash_err (stepF : StepFun) (st : ActorNetwork)
    (obs adv : T3) (A : List (List ℕ)) (S E Sa Ea : ℕ)
    (hobs : Wf3 obs S E st.net.state_dim)
    (hA : Wf2 A S E)
    (hrange : ∀ r ∈ A, ∀ k ∈ r, k < st.num_outs)
    (hw3 : st.net.l3.weight.length = st.num_outs)
    (hb3 : st.net.l3.bias.length = st.num_outs)
    (hal : adv.length = Sa) (har : ∀ m ∈ adv, m.length = Ea)
    (hS : 0 < S) (hSa : 0 < Sa)
    (hclash : BatchClash Sa Ea S E) :
    ActorNetwork.batch_update stepF st obs (idxT3 A) adv false =
      .error .shapeMismatch := by
  have hD : min st.net.l3.weight.length st.net.l3.bias.length = st.num_outs := by
    rw [hw3, hb3, min_self]
  have hPwf : Wf3 (obs.map fun m => m.map st.net.forward) S E st.num_outs :=
    Wf3_forward st.net obs S E st.num_outs hobs hD
  have hnwf : Wf3 (nlpT (obs.map fun m => m.map st.net.forward) A) S E 1 :=
    Wf3_nlpT _ A S E st.num_outs hPwf hA
  unfold ActorNetwork.batch_update
  rw [forwardBatch_ok st.net obs S E hobs, andThenE_ok, if_neg (by simp),
    squeezeLastE_idx, andThenE_ok,
    logProb2_ok _ A st.num_outs S E hPwf hA hrange, andThenE_ok, nlp_fold]
  unfold mul3 bc3
  rcases hclash with ⟨h1, h2, h3⟩ | ⟨h1, h2, h3⟩
  · rw [bcE_error _ _ _ (by rw [hal, hnwf.1]; exact h1) (by rw [hal]; exact h2)
      (by rw [hnwf.1]; exact h3)]
    rfl
  · rw [bcE_bcE_err_dim1 _ _ _ Sa S Ea E hal har hnwf.1
      (fun m hm => (hnwf.2 m hm).1) hSa hS h1 h2 h3]
    rfl

/-- Distribution-path actor update whose advantage batch shape clashes
with the observation batch shape in either dimension: subtracting the
entropy bonus raises. -/
theorem actor_dist_advClash_err (stepF : StepFun) (st : ActorNetwork)
    (obs act adv : T3) (S E Sa Ea : ℕ)
    (hobs : Wf3 obs S E st.net.state_dim)
    (hal : adv.length = Sa) (har : ∀ m ∈ adv, m.length = Ea)
    (hS : 0 < S) (hSa : 0 < Sa)
    (hclash : BatchClash Sa Ea S E) :
    ActorNetwork.batch_update stepF st obs act adv true =
      .error .shapeMismatch := by
  have hPwf := Wf3_forward st.net obs S E _ hobs rfl
  have hebwf : Wf3 (scale3 st.beta (entropyB (obs.map fun m => m.map st.net.forward)))
      S E 1 :=
    Wf3_scale3 st.beta _ S E 1 (Wf3_entropyB _ S E _ hPwf)
  have hnegl : (neg3 adv).length = Sa := by simp [neg3, hal]
  have hnegr : ∀ m ∈ neg3 adv, m.length = Ea := by
    intro m hm
    rcases List.mem_map.1 hm with ⟨m0, hm0, rfl⟩
    simp [har m0 hm0]
  unfold ActorNetwork.batch_update
  rw [forwardBatch_ok st.net obs S E hobs, andThenE_ok, if_pos rfl, andThenE_ok]
  unfold sub3 bc3
  rcases hclash with ⟨h1, h2, h3⟩ | ⟨h1, h2, h3⟩
  · rw [bcE_error _ _ _ (by rw [hnegl, hebwf.1]; exact h1) (by rw [hnegl]; exact h2)
      (by rw [hebwf.1]; exact h3)]
    rfl
  · rw [bcE_bcE_err_dim1 _ _ _ Sa S Ea E hnegl hnegr hebwf.1
      (fun m hm => (hebwf.2 m hm).1) hSa hS h1 h2 h3]
    rfl

/- ### Sequences of successful updates -/

/-- `CriticRun st ls st'`: from state `st`, some sequence of successful
`batch_update` calls recorded exactly the losses `ls` (in call order) and
ended in state `st'`. -/
def CriticRun : CriticNetwork → List ℝ → CriticNetwork → Prop
  | st, [], st'' => st'' = st
  | st, L :: Ls, st'' =>
    ∃ stepF obs act target b st',
      CriticNetwork.batch_update stepF st obs act target b = .ok st' ∧
      st'.losses = pushTrim st.losses L ∧
      CriticRun st' Ls st''

/-- `ActorRun st ls st'`: the actor-side analogue of `CriticRun`. -/
def ActorRun : ActorNetwork → List ℝ → ActorNetwork → Prop
  | st, [], st'' => st'' = st
  | st, L :: Ls, st'' =>
    ∃ stepF obs act adv b st',
      ActorNetwork.batch_update stepF st obs act adv b = .ok st' ∧
      st'.losses = pushTrim st.losses L ∧
      ActorRun st' Ls st''

theorem CriticRun_inv : ∀ (ls : List ℝ) (st st' : CriticNetwork) (done : List ℝ),
    CriticRun st ls st' → st.losses = done.drop (done.length - 20) →
    st'.losses = (done ++ ls).drop ((done ++ ls).length - 20) ∧
      (ls ≠ [] → st'.critic_loss = ((meanList st'.losses : ℝ) : EReal)) := by
  intro ls
  induction ls with
  | nil =>
    intro st st' done hrun hdone
    rcases hrun with rfl
    exact ⟨by simpa using hdone, fun h => absurd rfl h⟩
  | cons L Ls ih =>
    intro st st' done hrun hdone
    obtain ⟨stepF, obs, act, target, b, st1, hup, hl, hrest⟩ := hrun
    obtain ⟨L', hst1⟩ := critic_update_ok_inv stepF st obs act target b st1 hup
    have hL : L' = L := by
      apply pushTrim_inj st.losses
      rw [← hl, hst1]
    subst hL
    have hlos1 : st1.losses = (done ++ [L']).drop ((done ++ [L']).length - 20) := by
      rw [hst1]
      show pushTrim st.losses L' = _
      rw [hdone]
      exact pushTrim_drop done L'
    have happ : done ++ [L'] ++ Ls = done ++ (L' :: Ls) := by simp
    have hmain := ih st1 st' (done ++ [L']) hrest hlos1
    refine ⟨by rw [← happ]; exact hmain.1, fun _ => ?_⟩
    cases Ls with
    | nil =>
      rcases hrest with rfl
      rw [hst1]
    | cons L2 Ls2 => exact hmain.2 (by simp)

theorem sampleRow_length (u : ℕ → ℕ → ℝ) (i : ℕ) :
    ∀ (j : ℕ) (m : List Vec), (sampleRow u i j m).length = m.length := by
  intro j m
  induction m generalizing j with
  | nil => rfl
  | cons p ps ih => simp [sampleRow, ih]

theorem sampleGrid_length (u : ℕ → ℕ → ℝ) :
    ∀ (i : ℕ) (x : T3), (sampleGrid u i x).length = x.length := by
  intro i x
  induction x generalizing i with
  | nil => rfl
  | cons m ms ih => simp [sampleGrid, ih]

theorem sampleGrid_rows (u : ℕ → ℕ → ℝ) :
    ∀ (i : ℕ) (x : T3) (r : List ℕ), r ∈ sampleGrid u i x →
      ∃ m ∈ x, r.length = m.length := by
  intro i x
  induction x generalizing i with
  | nil => intro r hr; simp [sampleGrid] at hr
  | cons m ms ih =>
    intro r hr
    rcases List.mem_cons.1 hr with rfl | hr'
    · exact ⟨m, List.mem_cons_self m ms, sampleRow_length u i 0 m⟩
    · obtain ⟨m', hm', hlen⟩ := ih (i + 1) r hr'
      exact ⟨m', List.mem_cons_of_mem m hm', hlen⟩

theorem ActorRun_inv : ∀ (ls : List ℝ) (st st' : ActorNetwork) (done : List ℝ),
    ActorRun st ls st' → st.losses = done.drop (done.length - 20) →
    st'.losses = (done ++ ls).drop ((done ++ ls).length - 20) ∧
      (ls ≠ [] → st'.actor_loss = ((meanList st'.losses : ℝ) : EReal)) := by
  intro ls
  induction ls with
  | nil =>
    intro st st' done hrun hdone
    rcases hrun with rfl
    exact ⟨by simpa using hdone, fun h => absurd rfl h⟩
  | cons L Ls ih =>
    intro st st' done hrun hdone
    obtain ⟨stepF, obs, act, adv, b, st1, hup, hl, hrest⟩ := hrun
    obtain ⟨L', hst1⟩ := actor_update_ok_inv stepF st obs act adv b st1 hup
    have hL : L' = L := by
      apply pushTrim_inj st.losses
      rw [← hl, hst1]
    subst hL
    have hlos1 : st1.losses = (done ++ [L']).drop ((done ++ [L']).length - 20) := by
      rw [hst1]
      show pushTrim st.losses L' = _
      rw [hdone]
      exact pushTrim_drop done L'
    have happ : done ++ [L'] ++ Ls = done ++ (L' :: Ls) := by simp
    have hmain := ih st1 st' (done ++ [L']) hrest hlos1
    refine ⟨by rw [← happ]; exact hmain.1, fun _ => ?_⟩
    cases Ls with
    | nil =>
      rcases hrest with rfl
      rw [hst1]
    | cons L2 Ls2 => exact hmain.2 (by simp)

/- ### Concrete instances -/

/-- A minimal value-mode network: one input feature, one output, no hidden
units (`l1`, `l2` empty), so the single raw score is the bias `0`. -/
def netV : NeuralNet :=
  { state_dim := 1, action_dim := 1
    l1 := ⟨[], []⟩, l2 := ⟨[], []⟩, l3 := ⟨[[]], [0]⟩
    b_actor := false }

/-- The same minimal network in policy mode. -/
def netP : NeuralNet := { netV with b_actor := true }

/-- A freshly constructed critic trainer over `netV`. -/
def critic0 : CriticNetwork := CriticNetwork.init "critic" netV 1 []

/-- A freshly constructed actor trainer over `netP`. -/
def actor0 : ActorNetwork := ActorNetwork.init "actor" netP 1 0 []

theorem pushTrim_ne_nil (l : List ℝ) (x : ℝ) : pushTrim l x ≠ [] := by
  intro h
  have hlast := pushTrim_getLast l x
  rw [h] at hlast
  exact Option.noConfusion hlast

/-- The recorded loss of one critic update on the empty batch. -/
noncomputable def cLoss0 : ℝ := criticLossVal critic0.net [] [] []

/-- The critic state after one successful update on the empty batch. -/
noncomputable def criticStep0 : CriticNetwork :=
  { critic0 with
    losses := pushTrim critic0.losses cLoss0
    critic_loss := ((meanList (pushTrim critic0.losses cLoss0) : ℝ) : EReal) }

theorem critic_step0_ok :
    CriticNetwork.batch_update (fun p => p) critic0 [] (idxT3 []) [] false =
      .ok criticStep0 :=
  critic_update_ok (fun p => p) critic0 [] [] [] 0 0 (by decide) (by decide)
    (by decide) (by decide) (by decide) (by decide)

/-- The recorded loss of one actor update on the empty batch. -/
noncomputable def aLoss0 : ℝ := actorLossVal actor0.net actor0.beta [] [] []

/-- The actor state after one successful update on the empty batch. -/
noncomputable def actorStep0 : ActorNetwork :=
  { actor0 with
    losses := pushTrim actor0.losses aLoss0
    actor_loss := ((meanList (pushTrim actor0.losses aLoss0) : ℝ) : EReal) }

theorem actor_step0_ok :
    ActorNetwork.batch_update (fun p => p) actor0 [] (idxT3 []) [] false =
      .ok actorStep0 :=
  actor_update_ok (fun p => p) actor0 [] [] [] 0 0 (by decide) (by decide)
    (by decide) (by decide) (by decide) (by decide)

/- ### The claims -/

/-- C1: on every well-shaped input batch, a policy-mode forward pass equals
the softmax of the final layer's raw scores, so every output entry is
non-negative and every output row sums to 1; a value-mode forward pass
returns the raw scores unmodified. -/
theorem spec_C1 (net : NeuralNet) (obs : T3) (S E : ℕ)
    (hobs : Wf3 obs S E net.state_dim)
    (hw3 : 0 < net.l3.weight.length) (hb3 : 0 < net.l3.bias.length) :
    net.forwardBatch obs = .ok (obs.map fun m => m.map net.forward) ∧
    (net.b_actor = true →
      ∀ m ∈ obs, ∀ v ∈ m,
        net.forward v = softmax (net.rawScores v) ∧
        (∀ x ∈ net.forward v, 0 ≤ x) ∧ (net.forward v).sum = 1) ∧
    (net.b_actor = false →
      ∀ m ∈ obs, ∀ v ∈ m, net.forward v = net.rawScores v) := by
  refine ⟨forwardBatch_ok net obs S E hobs, ?_, ?_⟩
  · intro hb m _ v _
    have hfwd : net.forward v = softmax (net.rawScores v) := by
      unfold NeuralNet.forward
      rw [hb]
      simp
    have hne : net.rawScores v ≠ [] := by
      intro hnil
      have hlen : (net.rawScores v).length = min net.l3.weight.length net.l3.bias.length := by
        unfold NeuralNet.rawScores
        rw [Linear.apply_length]
      rw [hnil] at hlen
      simp at hlen
      omega
    exact ⟨hfwd, hfwd ▸ softmax_nonneg _, hfwd ▸ softmax_sum_one _ hne⟩
  · intro hb m _ v _
    unfold NeuralNet.forward
    rw [hb]
    simp

theorem spec_C1_witness :
    netP.forwardBatch [[[0]]] = .ok ([[[0]]].map fun m => m.map netP.forward) ∧
    (∀ x ∈ netP.forward [0], 0 ≤ x) ∧ (netP.forward [0]).sum = 1 ∧
    netV.forward [0] = netV.rawScores [0] := by
  have h1 := spec_C1 netP [[[0]]] 1 1 (by decide) (by decide) (by decide)
  have h2 := spec_C1 netV [[[0]]] 1 1 (by decide) (by decide) (by decide)
  have hm : [(0:ℝ)] ∈ [[(0:ℝ)]] := List.mem_cons_self _ _
  have hmm : [[(0:ℝ)]] ∈ [[[(0:ℝ)]]] := List.mem_cons_self _ _
  exact ⟨h1.1, (h1.2.1 rfl _ hmm _ hm).2.1, (h1.2.1 rfl _ hmm _ hm).2.2,
    h2.2.2 rfl _ hmm _ hm⟩

/-- C2: in the one-hot critic path, the selection tensor is exactly the
one-hot encoding of each action index over `num_outs` entries, the per
example predicted scalar (`dot_prd`) is the network output at that index
(`criticSel`), and the successful update records the mean-squared error
between those predictions and the targets (`criticLossVal`). -/
theorem spec_C2 (stepF : StepFun) (st : CriticNetwork) (obs target : T3)
    (A : List (List ℕ)) (S E : ℕ)
    (hobs : Wf3 obs S E st.net.state_dim)
    (hA : Wf2 A S E)
    (hrange : ∀ r ∈ A, ∀ k ∈ r, k < st.num_outs)
    (hw3 : st.net.l3.weight.length = st.num_outs)
    (hb3 : st.net.l3.bias.length = st.num_outs)
    (htgt : Wf3 target S E 1) :
    oneHotSelE st.num_outs (idxT3 A) =
      .ok (A.map fun r => r.map (oneHot st.num_outs)) ∧
    weightedSum (obs.map fun m => m.map st.net.forward)
        (A.map fun r => r.map (oneHot st.num_outs)) = .ok (criticSel st.net obs A) ∧
    criticLossVal st.net obs A target =
      mean3 (zip3 (fun t p => (t - p) ^ 2) target (criticSel st.net obs A)) ∧
    CriticNetwork.batch_update stepF st obs (idxT3 A) target false =
      .ok { st with
            optim := (stepF (st.optim, st.net)).1
            net := (stepF (st.optim, st.net)).2
            losses := pushTrim st.losses (criticLossVal st.net obs A target)
            critic_loss :=
              ((meanList (pushTrim st.losses (criticLossVal st.net obs A target)) : ℝ)
                : EReal) } :=
  ⟨oneHotSelE_ok st.num_outs A hrange,
   weightedSum_sel st.net obs A st.num_outs S E hobs hA hrange hw3 hb3,
   rfl,
   critic_update_ok stepF st obs target A S E hobs hA hrange hw3 hb3 htgt⟩

/-- A four-output critic to exercise the one-hot example of the claim. -/
def net4 : NeuralNet :=
  { state_dim := 1, action_dim := 4
    l1 := ⟨[], []⟩, l2 := ⟨[], []⟩, l3 := ⟨[[], [], [], []], [0, 0, 0, 0]⟩
    b_actor := false }

/-- A critic trainer with `num_outs = 4` over `net4`. -/
def critic4 : CriticNetwork := CriticNetwork.init "critic4" net4 4 []

theorem spec_C2_witness :
    oneHot 4 2 = [0, 0, 1, 0] ∧
    oneHotSelE critic4.num_outs (idxT3 [[2]]) =
      .ok ([[2]].map fun r => r.map (oneHot critic4.num_outs)) ∧
    weightedSum ([[[0]]].map fun m => m.map critic4.net.forward)
        ([[2]].map fun r => r.map (oneHot critic4.num_outs)) =
      .ok (criticSel critic4.net [[[0]]] [[2]]) ∧
    CriticNetwork.batch_update (fun p => p) critic4 [[[0]]] (idxT3 [[2]]) [[[5]]] false =
      .ok { critic4 with
            optim := ((fun p : OptState × NeuralNet => p) (critic4.optim, critic4.net)).1
            net := ((fun p : OptState × NeuralNet => p) (critic4.optim, critic4.net)).2
            losses := pushTrim critic4.losses (criticLossVal critic4.net [[[0]]] [[2]] [[[5]]])
            critic_loss :=
              ((meanList (pushTrim critic4.losses
                (criticLossVal critic4.net [[[0]]] [[2]] [[[5]]])) : ℝ) : EReal) } := by
  have h := spec_C2 (fun p => p) critic4 [[[0]]] [[[5]]] [[2]] 1 1
    (by decide) (by decide) (by decide) (by decide) (by decide) (by decide)
  refine ⟨?_, h.1, h.2.1, h.2.2.2⟩
  norm_num [oneHot, List.range_succ]

/-- C3: on a well-shaped batch, the index-path actor update succeeds and
the recorded scalar loss (`actorLossVal`) is the batch mean of
`advantage * (-log pi(action)) - beta * entropy(pi)`, with `pi` the current
policy output, `nlpT` the per-example negative log-probability of the taken
action and `entropyB` the per-example entropy. -/
theorem spec_C3 (stepF : StepFun) (st : ActorNetwork) (obs adv : T3)
    (A : List (List ℕ)) (S E : ℕ)
    (hobs : Wf3 obs S E st.net.state_dim)
    (hA : Wf2 A S E)
    (hrange : ∀ r ∈ A, ∀ k ∈ r, k < st.num_outs)
    (hw3 : st.net.l3.weight.length = st.num_outs)
    (hb3 : st.net.l3.bias.length = st.num_outs)
    (hadv : Wf3 adv S E 1) :
    actorLossVal st.net st.beta obs A adv =
      mean3 (zip3 (· - ·)
        (zip3 (· * ·) adv (nlpT (obs.map fun m => m.map st.net.forward) A))
        (scale3 st.beta (entropyB (obs.map fun m => m.map st.net.forward)))) ∧
    ActorNetwork.batch_update stepF st obs (idxT3 A) adv false =
      .ok { st with
            optim := (stepF (st.optim, st.net)).1
            net := (stepF (st.optim, st.net)).2
            losses := pushTrim st.losses (actorLossVal st.net st.beta obs A adv)
            actor_loss :=
              ((meanList (pushTrim st.losses (actorLossVal st.net st.beta obs A adv)) : ℝ)
                : EReal) } :=
  ⟨rfl, actor_update_ok stepF st obs adv A S E hobs hA hrange hw3 hb3 hadv⟩

theorem spec_C3_witness :
    actorLossVal actor0.net actor0.beta [[[0]]] [[0]] [[[1]]] =
      mean3 (zip3 (· - ·)
        (zip3 (· * ·) [[[1]]] (nlpT ([[[0]]].map fun m => m.map actor0.net.forward) [[0]]))
        (scale3 actor0.beta (entropyB ([[[0]]].map fun m => m.map actor0.net.forward)))) ∧
    ActorNetwork.batch_update (fun p => p) actor0 [[[0]]] (idxT3 [[0]]) [[[1]]] false =
      .ok { actor0 with
            optim := ((fun p : OptState × NeuralNet => p) (actor0.optim, actor0.net)).1
            net := ((fun p : OptState × NeuralNet => p) (actor0.optim, actor0.net)).2
            losses := pushTrim actor0.losses (actorLossVal actor0.net actor0.beta [[[0]]] [[0]] [[[1]]])
            actor_loss :=
              ((meanList (pushTrim actor0.losses
                (actorLossVal actor0.net actor0.beta [[[0]]] [[0]] [[[1]]])) : ℝ) : EReal) } :=
  spec_C3 (fun p => p) actor0 [[[0]]] [[[1]]] [[0]] 1 1
    (by decide) (by decide) (by decide) (by decide) (by decide) (by decide)

/-- C4: after any sequence of successful updates recording the losses `ls`
(in call order) from a freshly constructed trainer, the loss history is
exactly the last 20 entries of `ls` (so its length is `min ls.length 20`),
and after every successful update the running-mean diagnostic is the
arithmetic mean of the history.  Both trainers. -/
theorem spec_C4 (name1 name2 : String) (net1 net2 : NeuralNet) (k1 k2 : ℕ)
    (beta : ℝ) (o1 o2 : OptState) (ls1 ls2 : List ℝ)
    (st1 : CriticNetwork) (st2 : ActorNetwork)
    (h1 : CriticRun (CriticNetwork.init name1 net1 k1 o1) ls1 st1)
    (h2 : ActorRun (ActorNetwork.init name2 net2 k2 beta o2) ls2 st2) :
    (st1.losses = ls1.drop (ls1.length - 20) ∧
      st1.losses.length = min ls1.length 20 ∧
      (ls1 ≠ [] → st1.critic_loss = ((meanList st1.losses : ℝ) : EReal))) ∧
    (st2.losses = ls2.drop (ls2.length - 20) ∧
      st2.losses.length = min ls2.length 20 ∧
      (ls2 ≠ [] → st2.actor_loss = ((meanList st2.losses : ℝ) : EReal))) := by
  have hc := CriticRun_inv ls1 _ st1 [] h1 (by simp [CriticNetwork.init])
  have ha := ActorRun_inv ls2 _ st2 [] h2 (by simp [ActorNetwork.init])
  have hc1 : st1.losses = ls1.drop (ls1.length - 20) := by simpa using hc.1
  have ha1 : st2.losses = ls2.drop (ls2.length - 20) := by simpa using ha.1
  refine ⟨⟨hc1, ?_, hc.2⟩, ⟨ha1, ?_, ha.2⟩⟩
  · rw [hc1, List.length_drop]; omega
  · rw [ha1, List.length_drop]; omega

theorem spec_C4_witness :
    (criticStep0.losses = [cLoss0].drop ([cLoss0].length - 20) ∧
      criticStep0.losses.length = min [cLoss0].length 20 ∧
      ([cLoss0] ≠ [] → criticStep0.critic_loss =
        ((meanList criticStep0.losses : ℝ) : EReal))) ∧
    (actorStep0.losses = [aLoss0].drop ([aLoss0].length - 20) ∧
      actorStep0.losses.length = min [aLoss0].length 20 ∧
      ([aLoss0] ≠ [] → actorStep0.actor_loss =
        ((meanList actorStep0.losses : ℝ) : EReal))) := by
  have hrunC : CriticRun (CriticNetwork.init "critic" netV 1 []) [cLoss0] criticStep0 :=
    ⟨fun p => p, [], idxT3 [], [], false, criticStep0, critic_step0_ok, rfl, rfl⟩
  have hrunA : ActorRun (ActorNetwork.init "actor" netP 1 0 []) [aLoss0] actorStep0 :=
    ⟨fun p => p, [], idxT3 [], [], false, actorStep0, actor_step0_ok, rfl, rfl⟩
  exact spec_C4 "critic" "actor" netV netP 1 1 0 [] [] [cLoss0] [aLoss0]
    criticStep0 actorStep0 hrunC hrunA

/-- C5: an update call that fails with an error leaves the trainer exactly
as it was: the weights, the loss history and the running-mean diagnostic
are unchanged, and no loss is recorded.  Both trainers. -/
theorem spec_C5 :
    (∀ (stepF : StepFun) (st : CriticNetwork) (obs act target : T3) (b : Bool) (e : Err),
      CriticNetwork.batch_update stepF st obs act target b = .error e →
        CriticNetwork.batch_update_run stepF st obs act target b = st ∧
        (CriticNetwork.batch_update_run stepF st obs act target b).net = st.net ∧
        (CriticNetwork.batch_update_run stepF st obs act target b).losses = st.losses ∧
        (CriticNetwork.batch_update_run stepF st obs act target b).critic_loss =
          st.critic_loss) ∧
    (∀ (stepF : StepFun) (st : ActorNetwork) (obs act adv : T3) (b : Bool) (e : Err),
      ActorNetwork.batch_update stepF st obs act adv b = .error e →
        ActorNetwork.batch_update_run stepF st obs act adv b = st ∧
        (ActorNetwork.batch_update_run stepF st obs act adv b).net = st.net ∧
        (ActorNetwork.batch_update_run stepF st obs act adv b).losses = st.losses ∧
        (ActorNetwork.batch_update_run stepF st obs act adv b).actor_loss =
          st.actor_loss) := by
  constructor
  · intro stepF st obs act target b e h
    unfold CriticNetwork.batch_update_run
    rw [h, recoverE_error]
    exact ⟨rfl, rfl, rfl, rfl⟩
  · intro stepF st obs act adv b e h
    unfold ActorNetwork.batch_update_run
    rw [h, recoverE_error]
    exact ⟨rfl, rfl, rfl, rfl⟩

theorem spec_C5_witness :
    (CriticNetwork.batch_update_run (fun p => p) critic0 [[[]]] (idxT3 [[0]]) [[[5]]] false
        = critic0 ∧
      (CriticNetwork.batch_update_run (fun p => p) critic0 [[[]]] (idxT3 [[0]]) [[[5]]] false).net
        = critic0.net ∧
      (CriticNetwork.batch_update_run (fun p => p) critic0 [[[]]] (idxT3 [[0]]) [[[5]]] false).losses
        = critic0.losses ∧
      (CriticNetwork.batch_update_run (fun p => p) critic0 [[[]]] (idxT3 [[0]]) [[[5]]] false).critic_loss
        = critic0.critic_loss) ∧
    (ActorNetwork.batch_update_run (fun p => p) actor0 [[[0]]] (idxT3 [[7]]) [[[1]]] false
        = actor0 ∧
      (ActorNetwork.batch_update_run (fun p => p) actor0 [[[0]]] (idxT3 [[7]]) [[[1]]] false).net
        = actor0.net ∧
      (ActorNetwork.batch_update_run (fun p => p) actor0 [[[0]]] (idxT3 [[7]]) [[[1]]] false).losses
        = actor0.losses ∧
      (ActorNetwork.batch_update_run (fun p => p) actor0 [[[0]]] (idxT3 [[7]]) [[[1]]] false).actor_loss
        = actor0.actor_loss) := by
  have hc : CriticNetwork.batch_update (fun p => p) critic0 [[[]]] (idxT3 [[0]]) [[[5]]] false
      = .error .shapeMismatch := by
    unfold CriticNetwork.batch_update NeuralNet.forwardBatch
    simp [mapE_cons, critic0, CriticNetwork.init, netV]
  have ha : ActorNetwork.batch_update (fun p => p) actor0 [[[0]]] (idxT3 [[7]]) [[[1]]] false
      = .error .indexOutOfRange :=
    actor_update_oor (fun p => p) actor0 [[[0]]] [[[1]]] [[7]] 1 1
      (by decide) (by decide) (by decide) (by decide) ⟨[7], by decide, 7, by decide, by decide⟩
  exact ⟨spec_C5.1 _ _ _ _ _ _ _ hc, spec_C5.2 _ _ _ _ _ _ _ ha⟩

/-- C6 (amended): for every update call of either trainer, in both
`action_distribution` modes, on nonempty batches: an action batch
dimension that differs from the observations' with neither size 1 fails
with a dimension-mismatch error (in both one-hot paths and the critic's
distribution path; the actor's distribution path never reads the action
tensor - see C8); with batch-consistent actions, a target (critic) or
advantage (actor) batch dimension that differs from the observations'
with neither size 1 likewise fails with a dimension-mismatch error, in
every path; in the one-hot paths, an integer action index outside
`[0, num_outs)` - negative or at least `num_outs` - fails with an
out-of-range error; and conversely no error is raised when all batch
dimensions agree and every index is in range.  (A differing batch
dimension of size 1 does not fail: it is silently broadcast - see the
counterexample.) -/
theorem spec_C6 :
    (∀ (stepF : StepFun) (st : CriticNetwork) (obs target : T3) (A : List (List ℕ))
        (S E S' E' : ℕ), Wf3 obs S E st.net.state_dim → Wf2 A S' E' →
        (∀ r ∈ A, ∀ k ∈ r, k < st.num_outs) →
        0 < S → 0 < S' → BatchClash S E S' E' →
        CriticNetwork.batch_update stepF st obs (idxT3 A) target false =
          .error .shapeMismatch) ∧
    (∀ (stepF : StepFun) (st : CriticNetwork) (obs target : T3) (A : List (List ℕ))
        (S E St Et : ℕ), Wf3 obs S E st.net.state_dim → Wf2 A S E →
        (∀ r ∈ A, ∀ k ∈ r, k < st.num_outs) →
        st.net.l3.weight.length = st.num_outs → st.net.l3.bias.length = st.num_outs →
        target.length = St → (∀ m ∈ target, m.length = Et) →
        0 < S → 0 < St → BatchClash St Et S E →
        CriticNetwork.batch_update stepF st obs (idxT3 A) target false =
          .error .shapeMismatch) ∧
    (∀ (stepF : StepFun) (st : CriticNetwork) (obs target : T3) (A : List (List ℤ))
        (S E : ℕ), Wf3 obs S E st.net.state_dim →
        (∃ r ∈ A, ∃ k ∈ r, k < 0 ∨ (st.num_outs : ℤ) ≤ k) →
        CriticNetwork.batch_update stepF st obs (idxT3Z A) target false =
          .error .indexOutOfRange) ∧
    (∀ (stepF : StepFun) (st : CriticNetwork) (obs target : T3) (A : List (List ℕ))
        (S E : ℕ), Wf3 obs S E st.net.state_dim → Wf2 A S E →
        (∀ r ∈ A, ∀ k ∈ r, k < st.num_outs) →
        st.net.l3.weight.length = st.num_outs → st.net.l3.bias.length = st.num_outs →
        Wf3 target S E 1 →
        isOkE (CriticNetwork.batch_update stepF st obs (idxT3 A) target false) = true) ∧
    (∀ (stepF : StepFun) (st : CriticNetwork) (obs act target : T3)
        (S E S' E' : ℕ), Wf3 obs S E st.net.state_dim →
        act.length = S' → (∀ m ∈ act, m.length = E') →
        0 < S → 0 < S' → BatchClash S E S' E' →
        CriticNetwork.batch_update stepF st obs act target true =
          .error .shapeMismatch) ∧
    (∀ (stepF : StepFun) (st : CriticNetwork) (obs act target : T3)
        (S E St Et : ℕ), Wf3 obs S E st.net.state_dim →
        Wf3 act S E st.num_outs →
        st.net.l3.weight.length = st.num_outs → st.net.l3.bias.length = st.num_outs →
        target.length = St → (∀ m ∈ target, m.length = Et) →
        0 < S → 0 < St → BatchClash St Et S E →
        CriticNetwork.batch_update stepF st obs act target true =
          .error .shapeMismatch) ∧
    (∀ (stepF : StepFun) (st : CriticNetwork) (obs act target : T3)
        (S E : ℕ), Wf3 obs S E st.net.state_dim →
        Wf3 act S E st.num_outs →
        st.net.l3.weight.length = st.num_outs → st.net.l3.bias.length = st.num_outs →
        Wf3 target S E 1 →
        isOkE (CriticNetwork.batch_update stepF st obs act target true) = true) ∧
    (∀ (stepF : StepFun) (st : ActorNetwork) (obs adv : T3) (A : List (List ℕ))
        (S E S' E' : ℕ), Wf3 obs S E st.net.state_dim → Wf2 A S' E' →
        0 < S → 0 < S' → BatchClash S E S' E' →
        ActorNetwork.batch_update stepF st obs (idxT3 A) adv false =
          .error .shapeMismatch) ∧
    (∀ (stepF : StepFun) (st : ActorNetwork) (obs adv : T3) (A : List (List ℕ))
        (S E Sa Ea : ℕ), Wf3 obs S E st.net.state_dim → Wf2 A S E →
        (∀ r ∈ A, ∀ k ∈ r, k < st.num_outs) →
        st.net.l3.weight.length = st.num_outs → st.net.l3.bias.length = st.num_outs →
        adv.length = Sa → (∀ m ∈ adv, m.length = Ea) →
        0 < S → 0 < Sa → BatchClash Sa Ea S E →
        ActorNetwork.batch_update stepF st obs (idxT3 A) adv false =
          .error .shapeMismatch) ∧
    (∀ (stepF : StepFun) (st : ActorNetwork) (obs adv : T3) (A : List (List ℤ))
        (S E : ℕ), Wf3 obs S E st.net.state_dim → Wf2 A S E →
        st.net.l3.weight.length = st.num_outs → st.net.l3.bias.length = st.num_outs →
        (∃ r ∈ A, ∃ k ∈ r, k < 0 ∨ (st.num_outs : ℤ) ≤ k) →
        ActorNetwork.batch_update stepF st obs (idxT3Z A) adv false =
          .error .indexOutOfRange) ∧
    (∀ (stepF : StepFun) (st : ActorNetwork) (obs adv : T3) (A : List (List ℕ))
        (S E : ℕ), Wf3 obs S E st.net.state_dim → Wf2 A S E →
        (∀ r ∈ A, ∀ k ∈ r, k < st.num_outs) →
        st.net.l3.weight.length = st.num_outs → st.net.l3.bias.length = st.num_outs →
        Wf3 adv S E 1 →
        isOkE (ActorNetwork.batch_update stepF st obs (idxT3 A) adv false) = true) ∧
    (∀ (stepF : StepFun) (st : ActorNetwork) (obs act adv : T3)
        (S E Sa Ea : ℕ), Wf3 obs S E st.net.state_dim →
        adv.length = Sa → (∀ m ∈ adv, m.length = Ea) →
        0 < S → 0 < Sa → BatchClash Sa Ea S E →
        ActorNetwork.batch_update stepF st obs act adv true =
          .error .shapeMismatch) ∧
    (∀ (stepF : StepFun) (st : ActorNetwork) (obs act adv : T3)
        (S E : ℕ), Wf3 obs S E st.net.state_dim → Wf3 adv S E 1 →
        isOkE (ActorNetwork.batch_update stepF st obs act adv true) = true) := by
  refine ⟨?_, ?_, ?_, ?_, ?_, ?_, ?_, ?_, ?_, ?_, ?_, ?_, ?_⟩
  · intro stepF st obs target A S E S' E' hobs hA hrange hS hS' hclash
    exact critic_actClash_err stepF st obs target A S E S' E' hobs hA hrange hS hS' hclash
  · intro stepF st obs target A S E St Et hobs hA hrange hw3 hb3 htl htr hS hSt hclash
    exact critic_tgtClash_err stepF st obs target A S E St Et hobs hA hrange hw3 hb3
      htl htr hS hSt hclash
  · intro stepF st obs target A S E hobs hbad
    exact critic_update_oorZ stepF st obs target A S E hobs hbad
  · intro stepF st obs target A S E hobs hA hrange hw3 hb3 htgt
    rw [critic_update_ok stepF st obs target A S E hobs hA hrange hw3 hb3 htgt]
    rfl
  · intro stepF st obs act target S E S' E' hobs hal har hS hS' hclash
    exact critic_dist_actClash_err stepF st obs act target S E S' E' hobs hal har hS hS' hclash
  · intro stepF st obs act target S E St Et hobs hact hw3 hb3 htl htr hS hSt hclash
    exact critic_dist_tgtClash_err stepF st obs act target S E St Et hobs hact hw3 hb3
      htl htr hS hSt hclash
  · intro stepF st obs act target S E hobs hact hw3 hb3 htgt
    exact critic_dist_ok stepF st obs act target S E hobs hact hw3 hb3 htgt
  · intro stepF st obs adv A S E S' E' hobs hA hS hS' hclash
    exact actor_actClash_err stepF st obs adv A S E S' E' hobs hA hS hS' hclash
  · intro stepF st obs adv A S E Sa Ea hobs hA hrange hw3 hb3 hal har hS hSa hclash
    exact actor_advClash_err stepF st obs adv A S E Sa Ea hobs hA hrange hw3 hb3
      hal har hS hSa hclash
  · intro stepF st obs adv A S E hobs hA hw3 hb3 hbad
    exact actor_update_oorZ stepF st obs adv A S E hobs hA hw3 hb3 hbad
  · intro stepF st obs adv A S E hobs hA hrange hw3 hb3 hadv
    rw [actor_update_ok stepF st obs adv A S E hobs hA hrange hw3 hb3 hadv]
    rfl
  · intro stepF st obs act adv S E Sa Ea hobs hal har hS hSa hclash
    exact actor_dist_advClash_err stepF st obs act adv S E Sa Ea hobs hal har hS hSa hclash
  · intro stepF st obs act adv S E hobs hadv
    rw [actor_update_dist_ok stepF st obs act adv S E hobs hadv]
    rfl

/-- C6, counterexample to the claim as stated: the critic update below has
an action batch of one sequence step against an observation batch of two
(`(1,1,1)` against `(2,1,1)`: inconsistent batch dimensions), yet the call
succeeds - the library broadcasts the size-one dimension instead of
raising a dimension-mismatch error. -/
theorem spec_C6_cex :
    isOkE (CriticNetwork.batch_update (fun p => p) critic0
      [[[0]], [[0]]] (idxT3 [[0]]) [[[5]], [[5]]] false) = true := by
  unfold CriticNetwork.batch_update
  have hn : critic0.num_outs = 1 := rfl
  rw [forwardBatch_ok critic0.net [[[0]], [[0]]] 2 1 (by decide), andThenE_ok,
    if_neg (by simp), hn, oneHotSelE_ok 1 [[0]] (by decide), andThenE_ok]
  simp [weightedSum, mul3, bc3, bcE, mapE, sumLast, mseLoss, sqDiff3, isOkE,
    oneHot, NeuralNet.forward, NeuralNet.rawScores, NeuralNet.hidden2, reluV,
    Linear.apply, dot, critic0, CriticNetwork.init, netV]

theorem spec_C6_witness :
    CriticNetwork.batch_update (fun p => p) critic0
        [[[0]], [[0]]] (idxT3 [[0], [0], [0]]) [] false = .error .shapeMismatch ∧
    CriticNetwork.batch_update (fun p => p) critic0
        [[[0], [0]]] (idxT3 [[0, 0, 0]]) [] false = .error .shapeMismatch ∧
    CriticNetwork.batch_update (fun p => p) critic0
        [[[0]], [[0]]] (idxT3 [[0], [0]]) [[[7]], [[7]], [[7]]] false
      = .error .shapeMismatch ∧
    CriticNetwork.batch_update (fun p => p) critic0
        [[[0]]] (idxT3Z [[-1]]) [[[5]]] false = .error .indexOutOfRange ∧
    isOkE (CriticNetwork.batch_update (fun p => p) critic0
        [[[0]]] (idxT3 [[0]]) [[[5]]] false) = true ∧
    CriticNetwork.batch_update (fun p => p) critic0
        [[[0]], [[0]]] [[[1]], [[1]], [[1]]] [] true = .error .shapeMismatch ∧
    CriticNetwork.batch_update (fun p => p) critic0
        [[[0]], [[0]]] [[[1]], [[1]]] [[[7]], [[7]], [[7]]] true
      = .error .shapeMismatch ∧
    isOkE (CriticNetwork.batch_update (fun p => p) critic0
        [[[0]]] [[[1]]] [[[2]]] true) = true ∧
    ActorNetwork.batch_update (fun p => p) actor0
        [[[0]], [[0]]] (idxT3 [[0], [0], [0]]) [] false = .error .shapeMismatch ∧
    ActorNetwork.batch_update (fun p => p) actor0
        [[[0]], [[0]]] (idxT3 [[0], [0]]) [[[1]], [[1]], [[1]]] false
      = .error .shapeMismatch ∧
    ActorNetwork.batch_update (fun p => p) actor0
        [[[0]]] (idxT3Z [[-1]]) [[[1]]] false = .error .indexOutOfRange ∧
    isOkE (ActorNetwork.batch_update (fun p => p) actor0
        [[[0]]] (idxT3 [[0]]) [[[1]]] false) = true ∧
    ActorNetwork.batch_update (fun p => p) actor0
        [[[0]], [[0]]] [] [[[1]], [[1]], [[1]]] true = .error .shapeMismatch ∧
    isOkE (ActorNetwork.batch_update (fun p => p) actor0
        [[[0]]] [] [[[1]]] true) = true := by
  obtain ⟨c1, c2, c3, c4, c5, c6, c7, c8, c9, c10, c11, c12, c13⟩ := spec_C6
  refine ⟨?_, ?_, ?_, ?_, ?_, ?_, ?_, ?_, ?_, ?_, ?_, ?_, ?_, ?_⟩
  · exact c1 (fun p => p) critic0 [[[0]], [[0]]] [] [[0], [0], [0]] 2 1 3 1
      (by decide) (by decide) (by decide) (by decide) (by decide) (by decide)
  · exact c1 (fun p => p) critic0 [[[0], [0]]] [] [[0, 0, 0]] 1 2 1 3
      (by decide) (by decide) (by decide) (by decide) (by decide) (by decide)
  · exact c2 (fun p => p) critic0 [[[0]], [[0]]] [[[7]], [[7]], [[7]]] [[0], [0]] 2 1 3 1
      (by decide) (by decide) (by decide) (by decide) (by decide) (by decide) (by decide)
      (by decide) (by decide) (by decide)
  · exact c3 (fun p => p) critic0 [[[0]]] [[[5]]] [[-1]] 1 1
      (by decide) ⟨[-1], by decide, -1, by decide, Or.inl (by decide)⟩
  · exact c4 (fun p => p) critic0 [[[0]]] [[[5]]] [[0]] 1 1
      (by decide) (by decide) (by decide) (by decide) (by decide) (by decide)
  · exact c5 (fun p => p) critic0 [[[0]], [[0]]] [[[1]], [[1]], [[1]]] [] 2 1 3 1
      (by decide) (by decide) (by decide) (by decide) (by decide) (by decide)
  · exact c6 (fun p => p) critic0 [[[0]], [[0]]] [[[1]], [[1]]] [[[7]], [[7]], [[7]]]
      2 1 3 1 (by decide) (by decide) (by decide) (by decide) (by decide) (by decide)
      (by decide) (by decide) (by decide)
  · exact c7 (fun p => p) critic0 [[[0]]] [[[1]]] [[[2]]] 1 1
      (by decide) (by decide) (by decide) (by decide) (by decide)
  · exact c8 (fun p => p) actor0 [[[0]], [[0]]] [] [[0], [0], [0]] 2 1 3 1
      (by decide) (by decide) (by decide) (by decide) (by decide)
  · exact c9 (fun p => p) actor0 [[[0]], [[0]]] [[[1]], [[1]], [[1]]] [[0], [0]] 2 1 3 1
      (by decide) (by decide) (by decide) (by decide) (by decide) (by decide) (by decide)
      (by decide) (by decide) (by decide)
  · exact c10 (fun p => p) actor0 [[[0]]] [[[1]]] [[-1]] 1 1
      (by decide) (by decide) (by decide) (by decide)
      ⟨[-1], by decide, -1, by decide, Or.inl (by decide)⟩
  · exact c11 (fun p => p) actor0 [[[0]]] [[[1]]] [[0]] 1 1
      (by decide) (by decide) (by decide) (by decide) (by decide) (by decide)
  · exact c12 (fun p => p) actor0 [[[0]], [[0]]] [] [[[1]], [[1]], [[1]]] 2 1 3 1
      (by decide) (by decide) (by decide) (by decide) (by decide) (by decide)
  · exact c13 (fun p => p) actor0 [[[0]]] [] [[[1]]] 1 1
      (by decide) (by decide)

/-- C7: on an observation batch of shape `(S, E, feature_dim)`,
`sample_action` returns the grid of per-example categorical draws, a
tensor of shape `(S, E)` - indexed by the two batch dimensions only, with
no trailing singleton dimension appended (`Categorical(probs).sample()`
returns the batch shape; the shape comment in the source and the spec
promise `(S, E, 1)` instead). -/
theorem spec_C7 (st : ActorNetwork) (obs : T3) (u : ℕ → ℕ → ℝ) (g : Bool) (S E : ℕ)
    (hobs : Wf3 obs S E st.net.state_dim) :
    ActorNetwork.sample_action st obs u g =
      .ok (sampleGrid u 0 (obs.map fun m => m.map st.net.forward)) ∧
    ∀ R, ActorNetwork.sample_action st obs u g = .ok R →
      R.length = S ∧ ∀ r ∈ R, r.length = E := by
  have h1 : ActorNetwork.sample_action st obs u g =
      .ok (sampleGrid u 0 (obs.map fun m => m.map st.net.forward)) := by
    unfold ActorNetwork.sample_action
    rw [forwardBatch_ok st.net obs S E hobs, andThenE_ok]
  refine ⟨h1, ?_⟩
  intro R hR
  rw [h1] at hR
  have hReq := Except.ok.inj hR
  subst hReq
  constructor
  · rw [sampleGrid_length]
    simp [hobs.1]
  · intro r hr
    obtain ⟨m, hm, hlen⟩ := sampleGrid_rows u 0 _ r hr
    rcases List.mem_map.1 hm with ⟨m0, hm0, rfl⟩
    rw [hlen]
    simp [(hobs.2 m0 hm0).1]

theorem spec_C7_witness :
    ActorNetwork.sample_action actor0 [[[0], [0]]] (fun _ _ => 0) false =
      .ok (sampleGrid (fun _ _ => 0) 0
        ([[[0], [0]]].map fun m => m.map actor0.net.forward)) ∧
    ∀ R, ActorNetwork.sample_action actor0 [[[0], [0]]] (fun _ _ => 0) false = .ok R →
      R.length = 1 ∧ ∀ r ∈ R, r.length = 2 :=
  spec_C7 actor0 [[[0], [0]]] (fun _ _ => 0) false 1 2 (by decide)

/-- C8: with `action_distribution = True`, the actor update never consults
the action tensor (any two action arguments give syntactically the same
call), the per-example surrogate term is the negated advantage, and the
recorded loss is the batch mean of `-adv - beta * entropy`. -/
theorem spec_C8 (stepF : StepFun) (st : ActorNetwork) (obs act act' adv : T3)
    (S E : ℕ)
    (hobs : Wf3 obs S E st.net.state_dim)
    (hadv : Wf3 adv S E 1) :
    ActorNetwork.batch_update stepF st obs act adv true =
      ActorNetwork.batch_update stepF st obs act' adv true ∧
    actorLossValDist st.net st.beta obs adv =
      mean3 (zip3 (· - ·) (neg3 adv)
        (scale3 st.beta (entropyB (obs.map fun m => m.map st.net.forward)))) ∧
    ActorNetwork.batch_update stepF st obs act adv true =
      .ok { st with
            optim := (stepF (st.optim, st.net)).1
            net := (stepF (st.optim, st.net)).2
            losses := pushTrim st.losses (actorLossValDist st.net st.beta obs adv)
            actor_loss :=
              ((meanList (pushTrim st.losses (actorLossValDist st.net st.beta obs adv)) : ℝ)
                : EReal) } :=
  ⟨rfl, rfl, actor_update_dist_ok stepF st obs act adv S E hobs hadv⟩

theorem spec_C8_witness :
    ActorNetwork.batch_update (fun p => p) actor0 [[[0]]] [[[3]]] [[[1]]] true =
      ActorNetwork.batch_update (fun p => p) actor0 [[[0]]] [[[7]]] [[[1]]] true ∧
    actorLossValDist actor0.net actor0.beta [[[0]]] [[[1]]] =
      mean3 (zip3 (· - ·) (neg3 [[[1]]])
        (scale3 actor0.beta (entropyB ([[[0]]].map fun m => m.map actor0.net.forward)))) ∧
    ActorNetwork.batch_update (fun p => p) actor0 [[[0]]] [[[3]]] [[[1]]] true =
      .ok { actor0 with
            optim := ((fun p : OptState × NeuralNet => p) (actor0.optim, actor0.net)).1
            net := ((fun p : OptState × NeuralNet => p) (actor0.optim, actor0.net)).2
            losses := pushTrim actor0.losses (actorLossValDist actor0.net actor0.beta [[[0]]] [[[1]]])
            actor_loss :=
              ((meanList (pushTrim actor0.losses
                (actorLossValDist actor0.net actor0.beta [[[0]]] [[[1]]])) : ℝ) : EReal) } :=
  spec_C8 (fun p => p) actor0 [[[0]]] [[[3]]] [[[7]]] [[[1]]] 1 1 (by decide) (by decide)

/-- C9: the critic's evaluation (`run_main`) is a pure function of the
weights and the input: its result is exactly `forwardBatch` of the stored
network, independent of the gradient flag, so two calls with the same
state and input return identical outputs; and the call leaves the trainer
state (weights, optimizer state, loss history, diagnostic) unchanged. -/
theorem spec_C9 (st : CriticNetwork) (obs : T3) (g g' : Bool) :
    (CriticNetwork.run_main st obs g).2 = st ∧
    (CriticNetwork.run_main st obs g).1 = (CriticNetwork.run_main st obs g').1 ∧
    (CriticNetwork.run_main st obs g).1 = st.net.forwardBatch obs :=
  ⟨rfl, rfl, rfl⟩

/-- C10: a freshly constructed trainer has an empty loss history and an
infinite (`np.inf`, here `(.top : EReal)`) diagnostic; and after every
successful update the history is non-empty, so the running mean is never
taken over an empty history.  Both trainers. -/
theorem spec_C10 :
    (∀ (name : String) (net0 : NeuralNet) (k : ℕ) (opt0 : OptState),
      (CriticNetwork.init name net0 k opt0).losses = [] ∧
      (CriticNetwork.init name net0 k opt0).critic_loss = ⊤) ∧
    (∀ (name : String) (net0 : NeuralNet) (k : ℕ) (beta : ℝ) (opt0 : OptState),
      (ActorNetwork.init name net0 k beta opt0).losses = [] ∧
      (ActorNetwork.init name net0 k beta opt0).actor_loss = ⊤) ∧
    (∀ (stepF : StepFun) (st st' : CriticNetwork) (obs act target : T3) (b : Bool),
      CriticNetwork.batch_update stepF st obs act target b = .ok st' →
        st'.losses ≠ [] ∧ st'.critic_loss = ((meanList st'.losses : ℝ) : EReal)) ∧
    (∀ (stepF : StepFun) (st st' : ActorNetwork) (obs act adv : T3) (b : Bool),
      ActorNetwork.batch_update stepF st obs act adv b = .ok st' →
        st'.losses ≠ [] ∧ st'.actor_loss = ((meanList st'.losses : ℝ) : EReal)) := by
  refine ⟨fun _ _ _ _ => ⟨rfl, rfl⟩, fun _ _ _ _ _ => ⟨rfl, rfl⟩, ?_, ?_⟩
  · intro stepF st st' obs act target b h
    obtain ⟨L, hst⟩ := critic_update_ok_inv stepF st obs act target b st' h
    subst hst
    exact ⟨pushTrim_ne_nil st.losses L, rfl⟩
  · intro stepF st st' obs act adv b h
    obtain ⟨L, hst⟩ := actor_update_ok_inv stepF st obs act adv b st' h
    subst hst
    exact ⟨pushTrim_ne_nil st.losses L, rfl⟩

theorem spec_C10_witness :
    (critic0.losses = [] ∧ critic0.critic_loss = ⊤) ∧
    (actor0.losses = [] ∧ actor0.actor_loss = ⊤) ∧
    (criticStep0.losses ≠ [] ∧
      criticStep0.critic_loss = ((meanList criticStep0.losses : ℝ) : EReal)) ∧
    (actorStep0.losses ≠ [] ∧
      actorStep0.actor_loss = ((meanList actorStep0.losses : ℝ) : EReal)) :=
  ⟨spec_C10.1 "critic" netV 1 [],
   spec_C10.2.1 "actor" netP 1 0 [],
   spec_C10.2.2.1 (fun p => p) critic0 criticStep0 [] (idxT3 []) [] false critic_step0_ok,
   spec_C10.2.2.2 (fun p => p) actor0 actorStep0 [] (idxT3 []) [] false actor_step0_ok⟩

end ACNets
